import Mathlib

/-!
Verification development for the schema-generation pipeline of
`respectify-python` (`schema_generator.py`).

The Python source manipulates raw type-hint strings (substring tests such as
`'List[' in hint`, `str.replace`, and the regular expressions
`List\[(\w+)\]`, `Optional\[(\w+)\]`, `(?:List|Optional)\[(\w+)\]`).  The
embedding below mirrors those operations directly on `String` / `List Char`,
so every generator decision point is executed on the same textual data the
Python code sees.

Modelling notes (each definition's doc comment names its source symbol):
* `ast.unparse` results (type annotations, `Field` arguments, `model_config`
  values) are carried as the strings they unparse to.
* Python `dict`s keyed by unique names are carried as association lists
  (Python syntax forbids duplicate keyword arguments, and record names are
  registry-unique; where Python's "last assignment wins" could differ from
  an association list we look the name up in the reversed list).
* The regular-expression searches are modelled exactly: a pattern
  `P\[(\w+)\]` matches at the leftmost position where the literal `P[` is
  followed by a nonempty maximal run of word characters and then `]`;
  because `\w` never matches `]`, greedy matching with backtracking accepts
  at a position exactly under that condition.
-/

/-! ## String primitives mirroring Python's `in`, `replace`, and `re.search` -/

/-- A regex word character (`\w`): alphanumeric or underscore. -/
def isWordChar (c : Char) : Bool := c.isAlphanum || c == '_'

/-- `hasSubL s pat` is Python's substring test `pat in s` on char lists. -/
def hasSubL : List Char → List Char → Bool
  | [], pat => pat.isEmpty
  | c :: rest, pat => pat.isPrefixOf (c :: rest) || hasSubL rest pat

/-- Python's `pat in s` substring test on strings. -/
def hasSubStr (s pat : String) : Bool := hasSubL s.data pat.data

/-- Fuel-driven core of Python's `str.replace` (replace every occurrence,
scanning left to right).  The fuel bounds the number of scanning steps; with
`fuel = s.length` and a nonempty pattern it performs the full replacement. -/
def replaceFuel (pat rep : List Char) : Nat → List Char → List Char
  | _, [] => []
  | 0, s => s
  | fuel + 1, c :: rest =>
    if pat.isPrefixOf (c :: rest) then
      rep ++ replaceFuel pat rep fuel ((c :: rest).drop pat.length)
    else
      c :: replaceFuel pat rep fuel rest

/-- Python's `s.replace(pat, rep)` for a nonempty pattern. -/
def pyReplace (s pat rep : String) : String :=
  ⟨replaceFuel pat.data rep.data s.data.length s.data⟩

/-- One attempted regex match of `pat\[(\w+)\]` anchored at the start of `s`:
the literal `pat ++ "["`, then a nonempty maximal word-character run, then
`]`.  Returns the captured group. -/
def tryWrapAt (pat : List Char) (s : List Char) : Option (List Char) :=
  if (pat ++ ['[']).isPrefixOf s then
    let rest := s.drop (pat.length + 1)
    let run := rest.takeWhile isWordChar
    if run.isEmpty then none
    else
      match rest.dropWhile isWordChar with
      | ']' :: _ => some run
      | _ => none
  else none

/-- `re.search(pat + r'\[(\w+)\]', s)`: leftmost match, returning group 1. -/
def searchWrapL (pat : List Char) : List Char → Option (List Char)
  | [] => none
  | c :: rest =>
    match tryWrapAt pat (c :: rest) with
    | some r => some r
    | none => searchWrapL pat rest

/-- The name part of the `List[...]` wrapper pattern. -/
def listPat : List Char := ['L', 'i', 's', 't']

/-- The name part of the `Optional[...]` wrapper pattern. -/
def optPat : List Char := ['O', 'p', 't', 'i', 'o', 'n', 'a', 'l']

/-- `re.search(r'(?:List|Optional)\[(\w+)\]', s)`: at each position the
alternation tries `List` first, then `Optional`; leftmost match wins.
Source: `MarkdownGenerator._get_inner_type`. -/
def searchEitherL : List Char → Option (List Char)
  | [] => none
  | c :: rest =>
    match tryWrapAt listPat (c :: rest) with
    | some r => some r
    | none =>
      match tryWrapAt optPat (c :: rest) with
      | some r => some r
      | none => searchEitherL rest

/-- `MarkdownGenerator._get_inner_type`: extract the inner type name from
`List[X]` or `Optional[X]` via `re.search`. -/
def getInnerType (s : String) : Option String :=
  (searchEitherL s.data).map (⟨·⟩)

/-- `re.search(r'List\[(\w+)\]', s)` returning group 1 as a string. -/
def searchListInner (s : String) : Option String :=
  (searchWrapL listPat s.data).map (⟨·⟩)

/-- `re.search(r'Optional\[(\w+)\]', s)` returning group 1 as a string. -/
def searchOptionalInner (s : String) : Option String :=
  (searchWrapL optPat s.data).map (⟨·⟩)

/-- Python's `'\n'.join` and friends. -/
def joinWith (sep : String) : List String → String
  | [] => ""
  | [x] => x
  | x :: xs => x ++ sep ++ joinWith sep xs

/-- Python's `str.lower` (ASCII, which covers all names in this code base). -/
def lowerStr (s : String) : String := ⟨s.data.map Char.toLower⟩

/-- Python's `str.capitalize`: first character upper-cased, the rest
lower-cased. -/
def capitalizeWord (w : String) : String :=
  match w.data with
  | [] => ""
  | c :: cs => ⟨c.toUpper :: cs.map Char.toLower⟩

/-- Split a char list at every occurrence of the separator character
(Python's `str.split('_')` semantics, empty pieces preserved). -/
def splitOnChar (sep : Char) : List Char → List (List Char)
  | [] => [[]]
  | c :: rest =>
    let r := splitOnChar sep rest
    if c == sep then
      [] :: r
    else
      match r with
      | [] => [[c]]
      | piece :: pieces => (c :: piece) :: pieces

/-- Lexicographic (code-point) comparison used by Python's `sorted` on
strings. -/
def charListLe : List Char → List Char → Bool
  | [], _ => true
  | _ :: _, [] => false
  | a :: as, b :: bs =>
    if a.val < b.val then true
    else if b.val < a.val then false
    else charListLe as bs

/-- Insertion sort by code-point order (Python's `sorted` on strings). -/
def insertSorted (x : String) : List String → List String
  | [] => [x]
  | y :: ys => if charListLe x.data y.data then x :: y :: ys else y :: insertSorted x ys

/-- Sort a list of strings ascending (Python's `sorted`). -/
def sortStrings (l : List String) : List String := l.foldr insertSorted []

/-- Helper for `dedupFirst`: drop elements already seen. -/
def dedupAux (seen : List String) : List String → List String
  | [] => []
  | x :: xs => if seen.contains x then dedupAux seen xs else x :: dedupAux (x :: seen) xs

/-- Remove duplicates keeping first occurrences (the effect of collecting
into a Python `set` before sorting; only the member set matters because the
result is always sorted afterwards). -/
def dedupFirst (l : List String) : List String := dedupAux [] l

/-! ## Data model (`FieldInfo`, `SchemaInfo`) -/

/-- `FieldInfo` from `schema_generator.py`: one schema field.  `type_hint`
is the raw `ast.unparse` text of the annotation. -/
structure FieldInfo where
  name : String
  type_hint : String
  description : String
  default : Option String
  constraints : List (String × String)
deriving Repr, DecidableEq

/-- `SchemaInfo` from `schema_generator.py`: one parsed schema class. -/
structure SchemaInfo where
  name : String
  docstring : String
  fields : List FieldInfo
  is_frozen : Bool
  has_properties : Bool
deriving Repr, DecidableEq

/-- `FieldInfo.php_name`: unconditional snake_case → camelCase conversion
(`parts[0] + ''.join(word.capitalize() for word in parts[1:])`). -/
def phpName (n : String) : String :=
  match (splitOnChar '_' n.data).map (fun p => (⟨p⟩ : String)) with
  | [] => ""
  | p :: rest => p ++ joinWith "" (rest.map capitalizeWord)

/-- `FieldInfo.json_name`: JSON uses the Python snake_case name verbatim. -/
def jsonName (f : FieldInfo) : String := f.name

/-- The primitive-name table scan inside `FieldInfo.php_type`: the first
entry of `{str, int, float, bool, UUID}` occurring as a *substring* of the
cleaned type text wins; otherwise the cleaned text passes through. -/
def phpBase (clean : String) : String :=
  if hasSubStr clean "str" then "string"
  else if hasSubStr clean "int" then "int"
  else if hasSubStr clean "float" then "float"
  else if hasSubStr clean "bool" then "bool"
  else if hasSubStr clean "UUID" then "string"
  else clean

/-- `FieldInfo.php_type`: `'List[' in hint` → `array`; otherwise strip
`Optional[` and every `]`, scan the primitive table by substring, and
prepend `?` when the hint contained `Optional[`. -/
def phpType (hint : String) : String :=
  if hasSubStr hint "List[" then "array"
  else
    let clean := pyReplace (pyReplace hint "Optional[" "") "]" ""
    let base := phpBase clean
    if hasSubStr hint "Optional[" then "?" ++ base else base

/-- The registry `{s.name: s for s in schemas}` with Python's
"last assignment wins" duplicate-key semantics. -/
def schemaLookup (schemas : List SchemaInfo) (n : String) : Option SchemaInfo :=
  schemas.reverse.find? (fun s => s.name == n)

/-! ## `PHPGenerator.generate_class` -/

/-- The `", ".join(f"{k}={v}" ...)` constraint summary. -/
def constraintDoc (f : FieldInfo) : String :=
  joinWith ", " (f.constraints.map (fun kv => kv.1 ++ "=" ++ kv.2))

/-- The 79-character `=` rule of the generated-file banner (spelled with
`List.replicate` purely to avoid a 79-glyph source literal; the string value
is exactly the source's). -/
def bannerRule : String := " * " ++ ⟨List.replicate 79 '='⟩

/-- The fixed banner and class-opening lines of `generate_class`. -/
def classHeaderLines (schema : SchemaInfo) : List String :=
  ["<?php",
   "",
   "/*",
   bannerRule,
   " * WARNING: AUTO-GENERATED FILE - DO NOT EDIT MANUALLY!",
   bannerRule,
   " * ",
   " * This file is automatically generated from Python schemas in:",
   " * respectify-python/respectify/schemas.py",
   " * ",
   " * To make changes:",
   " * 1. Edit the Python schema file",
   " * 2. Run: python schema_generator.py",
   " * 3. All PHP classes and documentation will be regenerated",
   " * ",
   " * Any manual edits to this file WILL BE OVERWRITTEN!",
   bannerRule,
   " */",
   "",
   "namespace Respectify\\Schemas;",
   "",
   "/**",
   " * " ++ schema.docstring,
   " */",
   "class " ++ (schema.name ++ " \x7b")]

/-- The `public {php_type} ${php_name};` property declaration line. -/
def propertyLine (f : FieldInfo) : String :=
  "    public " ++ (phpType f.type_hint ++ (" $" ++ (phpName f.name ++ ";")))

/-- The doc-comment block plus property declaration emitted per field. -/
def propBlock (f : FieldInfo) : List String :=
  ["", "    /**", "     * " ++ f.description] ++
  (if f.constraints.isEmpty then [] else ["     * Constraints: " ++ constraintDoc f]) ++
  ["     */", propertyLine f]

/-- Constructor doc comment and signature lines. -/
def ctorHeaderLines (schema : SchemaInfo) : List String :=
  ["",
   "    /**",
   "     * " ++ (schema.name ++ " constructor."),
   "     * @param array $data The JSON data from the API",
   "     */",
   "    public function __construct(array $data) \x7b"]

/-- Hydration line: list of known schema objects (`array_map(... new C ...)`). -/
def arrayMapLine (f : FieldInfo) (innerClass : String) : String :=
  "        $this->" ++ (phpName f.name ++ (" = array_map(fn($item) => new " ++
    (innerClass ++ ("($item), $data[\x27" ++ (jsonName f ++ "\x27] ?? []);")))))

/-- Hydration line: plain array pass-through with `?? []` default. -/
def arrayDefaultLine (f : FieldInfo) : String :=
  "        $this->" ++ (phpName f.name ++ (" = $data[\x27" ++ (jsonName f ++ "\x27] ?? [];")))

/-- Hydration line: float coerced through `floatval` with `?? 0.0`. -/
def floatLine (f : FieldInfo) : String :=
  "        $this->" ++ (phpName f.name ++ (" = floatval($data[\x27" ++ (jsonName f ++ "\x27] ?? 0.0);")))

/-- Hydration line: scalar with a type-appropriate literal default. -/
def scalarLine (f : FieldInfo) (dflt : String) : String :=
  "        $this->" ++ (phpName f.name ++ (" = $data[\x27" ++ (jsonName f ++ ("\x27] ?? " ++ (dflt ++ ";")))))

/-- Hydration line: known-record optional, constructed only when the key is
present (`isset(...) ? new C(...) : null`). -/
def optionalConstructLine (f : FieldInfo) (innerClass : String) : String :=
  "        $this->" ++ (phpName f.name ++ (" = isset($data[\x27" ++ (jsonName f ++ ("\x27]) ? new " ++
    (innerClass ++ ("($data[\x27" ++ (jsonName f ++ "\x27]) : null;")))))))

/-- Hydration line: optional of an unknown type, `?? null` pass-through. -/
def optionalDefaultLine (f : FieldInfo) : String :=
  "        $this->" ++ (phpName f.name ++ (" = $data[\x27" ++ (jsonName f ++ "\x27] ?? null;")))

/-- Hydration line: required known-record reference, always constructed. -/
def requiredConstructLine (f : FieldInfo) (cls : String) : String :=
  "        $this->" ++ (phpName f.name ++ (" = new " ++ (cls ++ ("($data[\x27" ++ (jsonName f ++ "\x27]);")))))

/-- Hydration line: required unknown type, raw pass-through. -/
def rawPassLine (f : FieldInfo) : String :=
  "        $this->" ++ (phpName f.name ++ (" = $data[\x27" ++ (jsonName f ++ "\x27];")))

/-- The constructor-body dispatch of `generate_class`, one field at a time.
Mirrors the Python `for field in schema.fields:` loop body exactly; note the
two regex branches append *nothing* when the search fails. -/
def hydrationLines (schemas : List SchemaInfo) (f : FieldInfo) : List String :=
  let pt := phpType f.type_hint
  if pt == "array" then
    if hasSubStr f.type_hint "List[" then
      match searchListInner f.type_hint with
      | some innerClass =>
        if (schemaLookup schemas innerClass).isSome then [arrayMapLine f innerClass]
        else [arrayDefaultLine f]
      | none => []
    else [arrayDefaultLine f]
  else if pt == "int" || pt == "float" || pt == "bool" || pt == "string" then
    if pt == "float" then [floatLine f]
    else
      scalarLine f (if pt == "bool" then "false" else if pt == "int" then "0" else "\x27\x27") :: []
  else if hasSubStr f.type_hint "Optional[" then
    match searchOptionalInner f.type_hint with
    | some innerClass =>
      if (schemaLookup schemas innerClass).isSome then [optionalConstructLine f innerClass]
      else [optionalDefaultLine f]
    | none => []
  else
    if (schemaLookup schemas pt).isSome then [requiredConstructLine f pt]
    else [rawPassLine f]

/-- Closing lines of the generated class. -/
def classFooterLines : List String := ["    \x7d", "\x7d", ""]

/-- `PHPGenerator.generate_class` as the list of lines it accumulates. -/
def generateClassLines (schemas : List SchemaInfo) (schema : SchemaInfo) : List String :=
  classHeaderLines schema ++
  schema.fields.flatMap propBlock ++
  ctorHeaderLines schema ++
  schema.fields.flatMap (hydrationLines schemas) ++
  classFooterLines

/-- `PHPGenerator.generate_class`: the emitted PHP source string. -/
def generateClass (schemas : List SchemaInfo) (schema : SchemaInfo) : String :=
  joinWith "\n" (generateClassLines schemas schema)

/-! ## Line classifiers used by the counting claims -/

/-- `p` is a textual prefix of `s`. -/
def strStartsWith (s p : String) : Bool := p.data.isPrefixOf s.data

/-- The line's last character is `;`. -/
def lastIsSemicolon (s : String) : Bool := s.data.getLast? == some ';'

/-- A public property declaration line of the generated class: indented
`public` and terminated by `;` (the constructor signature ends in `{`). -/
def isPropLine (l : String) : Bool :=
  strStartsWith l "    public " && lastIsSemicolon l

/-- A constructor assignment line of the generated class: every hydration
statement starts with eight spaces and `$this->`. -/
def isAssignLine (l : String) : Bool := strStartsWith l "        $this->"

/-! ## `MarkdownGenerator`: editorial tables and the link resolver -/

/-- `MarkdownGenerator.INLINE_SUBTYPES`: the fixed editorial table mapping a
parent record to its inline-documented subtypes, in order. -/
def INLINE_SUBTYPES : List (String × List String) :=
  [("CommentScore", ["LogicalFallacy", "ObjectionablePhrase", "NegativeTonePhrase"]),
   ("CommentRelevanceResult", ["OnTopicResult", "BannedTopicsResult"]),
   ("DogwhistleResult", ["DogwhistleDetection", "DogwhistleDetails"])]

/-- `MarkdownGenerator.MAIN_SCHEMAS`: the fixed set of records with their
own documentation pages. -/
def MAIN_SCHEMAS : List String :=
  ["CommentScore", "SpamDetectionResult", "CommentRelevanceResult",
   "DogwhistleResult", "MegaCallResult", "InitTopicResponse"]

/-- `INLINE_SUBTYPES[parent]` lookup (`None` when the parent is not a key). -/
def inlineLookup (parent : String) : Option (List String) :=
  (INLINE_SUBTYPES.find? (fun kv => kv.1 == parent)).map (fun kv => kv.2)

/-- The membership test `type_name in INLINE_SUBTYPES[current]`, with a
missing key behaving as an empty list. -/
def inlineMember (typeName parent : String) : Bool :=
  match inlineLookup parent with
  | some subs => subs.contains typeName
  | none => false

/-- `self.subtype_parent`: the reverse map built in
`MarkdownGenerator.__init__` (no subtype is listed under two parents, so
first-match lookup coincides with the Python dict). -/
def subtypeParent (typeName : String) : Option String :=
  (INLINE_SUBTYPES.find? (fun kv => kv.2.contains typeName)).map (fun kv => kv.1)

/-- `MarkdownGenerator._get_type_link`: the link resolver.  Note the very
first test: a name absent from the registry gets no link, *before* any of
the precedence steps. -/
def getTypeLink (schemas : List SchemaInfo) (typeName currentSchema : String) : Option String :=
  if (schemaLookup schemas typeName).isSome = false then none
  else if inlineMember typeName currentSchema then some ("#" ++ lowerStr typeName)
  else if MAIN_SCHEMAS.contains typeName then some ("./" ++ typeName)
  else
    match subtypeParent typeName with
    | some parent => some ("./" ++ (parent ++ ("#" ++ lowerStr typeName)))
    | none => none

/-! ## `MarkdownGenerator` example-value synthesis -/

/-- `MarkdownGenerator._get_json_example`: representative JSON literal per
primitive name, `{}` for anything unrecognized. -/
def getJsonExample (t : String) : String :=
  if t == "str" then "\"string\""
  else if t == "int" then "1"
  else if t == "float" then "0.5"
  else if t == "bool" then "true"
  else if t == "UUID" then "\"550e8400-e29b-41d4-a716-446655440000\""
  else "\x7b\x7d"

/-- `MarkdownGenerator._get_json_field_example`: example value for one field
of an expanded object (nested records shown by bare name). -/
def getJsonFieldExample (schemas : List SchemaInfo) (f : FieldInfo) : String :=
  let th := f.type_hint
  if hasSubStr th "List[" then
    match getInnerType th with
    | some inner =>
      if inner == "str" then "[\"...\", \"...\"]"
      else if inner == "int" then "[1, 2]"
      else if inner == "float" then "[0.5, 0.8]"
      else if (schemaLookup schemas inner).isSome then "[" ++ (inner ++ ", ...]")
      else "[]"
    | none => "[]"
  else if hasSubStr th "Optional[" then
    match getInnerType th with
    | some inner =>
      if (schemaLookup schemas inner).isSome then inner
      else getJsonExample inner
    | none => getJsonExample "str"
  else if (schemaLookup schemas th).isSome then th
  else getJsonExample th

/-- `MarkdownGenerator._build_json_object_example`: the expanded example
object of a record, one line per field of the record itself. -/
def buildJsonObjectExample (schemas : List SchemaInfo) (schema : SchemaInfo) : String :=
  "\x7b\n" ++
  (joinWith ",\n" (schema.fields.map
    (fun f => "  \"" ++ (f.name ++ ("\": " ++ getJsonFieldExample schemas f)))) ++
  "\n\x7d")

/-- `MarkdownGenerator._get_json_example_value`: example value used in the
sub-type JSON table (note: `List[bool]` and `List[UUID]` fall through to
`[]`, and `Optional[X]` renders the inner example, never `null`). -/
def getJsonExampleValue (f : FieldInfo) : String :=
  let th := f.type_hint
  if hasSubStr th "List[" then
    match getInnerType th with
    | some inner =>
      if inner == "str" then "[\"...\", \"...\"]"
      else if inner == "int" then "[1, 2]"
      else if inner == "float" then "[0.5, 0.8]"
      else "[]"
    | none => "[]"
  else if hasSubStr th "Optional[" then
    match getInnerType th with
    | some inner => getJsonExample inner
    | none => getJsonExample "str"
  else getJsonExample th

/-! ## `MarkdownGenerator` per-field display views -/

/-- The `  # ge-le` range comment when both bounds are present. -/
def rangeComment (f : FieldInfo) : String :=
  match (f.constraints.find? (fun kv => kv.1 == "ge")),
        (f.constraints.find? (fun kv => kv.1 == "le")) with
  | some g, some l => "  # " ++ (g.2 ++ ("-" ++ l.2))
  | _, _ => ""

/-- `MarkdownGenerator._format_python_type`: Python type text for the
sub-type table, with the range comment replacing wrappers when bounded. -/
def formatPythonType (f : FieldInfo) : String :=
  match (f.constraints.find? (fun kv => kv.1 == "ge")),
        (f.constraints.find? (fun kv => kv.1 == "le")) with
  | some g, some l =>
    pyReplace (pyReplace f.type_hint "Optional[" "") "]" "" ++ ("  # " ++ (g.2 ++ ("-" ++ l.2)))
  | _, _ => f.type_hint

/-- The exact-name primitive map shared by the PHP display helpers. -/
def pyPrimToPhp (t : String) : String :=
  if t == "str" then "string"
  else if t == "int" then "int"
  else if t == "float" then "float"
  else if t == "bool" then "bool"
  else t

/-- `MarkdownGenerator._format_php_type`: PHP type text for displays
(`X[]` for lists, `?X` for optionals, exact-name primitive map). -/
def formatPhpType (f : FieldInfo) : String :=
  let th := f.type_hint
  if hasSubStr th "List[" then
    match getInnerType th with
    | some inner => inner ++ "[]"
    | none => "array"
  else if hasSubStr th "Optional[" then
    match getInnerType th with
    | some inner => "?" ++ pyPrimToPhp inner
    | none => pyPrimToPhp th
  else pyPrimToPhp th

/-- `MarkdownGenerator._format_python_field_display`. -/
def formatPythonFieldDisplay (schemas : List SchemaInfo) (f : FieldInfo) (currentSchema : String) : String :=
  let th := f.type_hint
  let rc := rangeComment f
  let tail :=
    match getTypeLink schemas th currentSchema with
    | some dl => "<code>result." ++ (f.name ++ (": </code>[`" ++ (th ++ ("`](" ++ (dl ++ (")" ++ rc))))))
    | none => "`result." ++ (f.name ++ (": " ++ (th ++ (rc ++ "`"))))
  match getInnerType th with
  | some inner =>
    match getTypeLink schemas inner currentSchema with
    | some lt =>
      if hasSubStr th "List[" then
        "<code>result." ++ (f.name ++ (": List[</code>[`" ++ (inner ++ ("`](" ++ (lt ++ (")<code>]</code>" ++ rc))))))
      else if hasSubStr th "Optional[" then
        "<code>result." ++ (f.name ++ (": Optional[</code>[`" ++ (inner ++ ("`](" ++ (lt ++ (")<code>]</code>" ++ rc))))))
      else tail
    | none => tail
  | none => tail

/-- `MarkdownGenerator._format_php_field_display`. -/
def formatPhpFieldDisplay (schemas : List SchemaInfo) (f : FieldInfo) (currentSchema : String) : String :=
  let th := f.type_hint
  let tail :=
    match getTypeLink schemas th currentSchema with
    | some dl => "<code>$result->" ++ (phpName f.name ++ (": </code>[`" ++ (th ++ ("`](" ++ (dl ++ ")")))))
    | none => "`$result->" ++ (phpName f.name ++ (": " ++ (formatPhpType f ++ "`")))
  match getInnerType th with
  | some inner =>
    match getTypeLink schemas inner currentSchema with
    | some lt =>
      if hasSubStr th "List[" then
        "<code>$result->" ++ (phpName f.name ++ (": </code>[`" ++ (inner ++ ("`](" ++ (lt ++ ")<code>[]</code>")))))
      else if hasSubStr th "Optional[" then
        "<code>$result->" ++ (phpName f.name ++ (": ?</code>[`" ++ (inner ++ ("`](" ++ (lt ++ ")")))))
      else tail
    | none => tail
  | none => tail

/-- `MarkdownGenerator._format_json_field_display`: the wire-format view,
embedding a fully expanded object when the (wrapped or direct) type is a
known record. -/
def formatJsonFieldDisplay (schemas : List SchemaInfo) (f : FieldInfo) (currentSchema : String) : String :=
  let th := f.type_hint
  let inner := getInnerType th
  let plainPart :=
    match schemaLookup schemas th with
    | some subtype =>
      let obj := buildJsonObjectExample schemas subtype
      let jc := "```json\n\"" ++ (jsonName f ++ ("\": " ++ (obj ++ "\n```")))
      match getTypeLink schemas th currentSchema with
      | some l => jc ++ ("\n\nThis is a [`" ++ (th ++ ("`](" ++ (l ++ ") object."))))
      | none => jc
    | none =>
      if hasSubStr th "List[" then
        if inner == some "str" then
          "```json\n\"" ++ (jsonName f ++ "\": [\"...\", \"...\"]\n```")
        else
          "```json\n\"" ++ (jsonName f ++ "\": []\n```")
      else if hasSubStr th "Optional[" then
        "```json\n\"" ++ (jsonName f ++ ("\": " ++ (getJsonExample (inner.getD "str") ++ "  // or null\n```")))
      else
        "```json\n\"" ++ (jsonName f ++ ("\": " ++ (getJsonExample th ++ "\n```")))
  match inner with
  | some i =>
    match schemaLookup schemas i with
    | some subtype =>
      let lt := getTypeLink schemas i currentSchema
      let obj := buildJsonObjectExample schemas subtype
      if hasSubStr th "List[" then
        let jc := "```json\n\"" ++ (jsonName f ++ ("\": [" ++ (obj ++ ", ...]\n```")))
        match lt with
        | some l => jc ++ ("\n\nEach element is a [`" ++ (i ++ ("`](" ++ (l ++ ") object."))))
        | none => jc
      else if hasSubStr th "Optional[" then
        let jc := "```json\n\"" ++ (jsonName f ++ ("\": " ++ (obj ++ "  // or null\n```")))
        match lt with
        | some l => jc ++ ("\n\nThis is a [`" ++ (i ++ ("`](" ++ (l ++ ") object (or null)."))))
        | none => jc
      else
        let jc := "```json\n\"" ++ (jsonName f ++ ("\": " ++ (obj ++ "\n```")))
        match lt with
        | some l => jc ++ ("\n\nThis is a [`" ++ (i ++ ("`](" ++ (l ++ ") object."))))
        | none => jc
    | none => plainPart
  | none => plainPart

/-! ## `MarkdownGenerator` document assembly -/

/-- `MarkdownGenerator._generate_field_doc`: heading, description, optional
constraint line, then the three language tabs. -/
def generateFieldDoc (schemas : List SchemaInfo) (f : FieldInfo) (currentSchema : String) : List String :=
  ["### " ++ f.name, "", f.description, ""] ++
  (if f.constraints.isEmpty then []
   else ["**Constraints:** " ++ constraintDoc f, ""]) ++
  ["<Tabs groupId=\"language\">",
   "<TabItem value=\"python\" label=\"Python\">",
   "",
   formatPythonFieldDisplay schemas f currentSchema,
   "",
   "</TabItem>",
   "<TabItem value=\"php\" label=\"PHP\">",
   "",
   formatPhpFieldDisplay schemas f currentSchema,
   "",
   "</TabItem>",
   "<TabItem value=\"rest\" label=\"JSON\">",
   "",
   formatJsonFieldDisplay schemas f currentSchema,
   "",
   "</TabItem>",
   "</Tabs>",
   ""]

/-- `MarkdownGenerator._generate_subtype_doc`: inline sub-type section with
Python/PHP tables and a JSON example block. -/
def generateSubtypeDoc (_schemas : List SchemaInfo) (schema : SchemaInfo) : List String :=
  ["### " ++ schema.name, "", schema.docstring, "",
   "<Tabs groupId=\"language\">",
   "<TabItem value=\"python\" label=\"Python\">",
   "",
   "| Field | Type | Description |",
   "|-------|------|-------------|"] ++
  schema.fields.map (fun f =>
    "| `" ++ (f.name ++ ("` | `" ++ (formatPythonType f ++ ("` | " ++ (f.description ++ " |")))))) ++
  ["",
   "</TabItem>",
   "<TabItem value=\"php\" label=\"PHP\">",
   "",
   "| Field | Type | Description |",
   "|-------|------|-------------|"] ++
  schema.fields.map (fun f =>
    "| `" ++ (phpName f.name ++ ("` | `" ++ (formatPhpType f ++ ("` | " ++ (f.description ++ " |")))))) ++
  ["",
   "</TabItem>",
   "<TabItem value=\"rest\" label=\"JSON\">",
   "",
   "```json",
   "\x7b",
   joinWith ",\n" (schema.fields.map (fun f =>
     "  \"" ++ (f.name ++ ("\": " ++ getJsonExampleValue f)))),
   "\x7d",
   "```",
   "",
   "</TabItem>",
   "</Tabs>",
   ""]

/-- `MarkdownGenerator._generate_imports_section`: the language-tabbed
import/usage block (`sorted` set of the record plus its directly nested
known-record types; the Python source builds two identical sets for the two
languages). -/
def generateImportsSection (imports : List String) : String :=
  "<Tabs groupId=\"language\">\n<TabItem value=\"python\" label=\"Python\">\n\n```python\nfrom respectify.schemas " ++
  ("import " ++
  (joinWith ", " imports ++
  ("\n```\n\n</TabItem>\n<TabItem value=\"php\" label=\"PHP\">\n\n```php\n" ++
  (joinWith "\n" (imports.map (fun n => "use Respectify\\Schemas\\" ++ (n ++ ";"))) ++
  "\n```\n\n</TabItem>\n<TabItem value=\"rest\" label=\"JSON\">\n\nTypes are returned as JSON objects in API responses.\n\n</TabItem>\n</Tabs>"))))

/-- The import set collected in `generate_doc`: the record's own name plus
every field's inner type that is a known record, deduplicated and sorted. -/
def collectImports (schemas : List SchemaInfo) (schema : SchemaInfo) : List String :=
  sortStrings (dedupFirst (schema.name ::
    schema.fields.filterMap (fun f =>
      match getInnerType f.type_hint with
      | some i => if (schemaLookup schemas i).isSome then some i else none
      | none => none)))

/-- `MarkdownGenerator.generate_doc` as its final list of lines (the two
`lines.insert(len(lines) - 2, ...)` calls place the imports section and a
blank line immediately before the `## Fields` heading; the list below is
that net result). -/
def generateDocLines (schemas : List SchemaInfo) (schema : SchemaInfo) (sidebarPosition : Nat) : List String :=
  ["---",
   "sidebar_position: " ++ toString sidebarPosition,
   "---",
   "",
   "import Tabs from \x27@theme/Tabs\x27;",
   "import TabItem from \x27@theme/TabItem\x27;",
   "",
   "# " ++ schema.name,
   "",
   schema.docstring,
   "",
   generateImportsSection (collectImports schemas schema),
   "",
   "## Fields",
   ""] ++
  schema.fields.flatMap (fun f => generateFieldDoc schemas f schema.name) ++
  (match inlineLookup schema.name with
   | some subs =>
     ["## Sub-types", ""] ++
     subs.flatMap (fun sn =>
       match schemaLookup schemas sn with
       | some subtype => generateSubtypeDoc schemas subtype
       | none => [])
   | none => [])

/-- `MarkdownGenerator.generate_doc`: the emitted markdown string; the
navigation-order front-matter number defaults to 1. -/
def generateDoc (schemas : List SchemaInfo) (schema : SchemaInfo) (sidebarPosition : Nat) : String :=
  joinWith "\n" (generateDocLines schemas schema sidebarPosition)

/-! ## `SchemaParser`: the extractor over (a model of) the syntax tree

`ast.parse` itself is outside the embedding; extraction starts from the
parsed tree.  Unparsed expression text (`ast.unparse` results) is carried
as strings.  A field initializer that is not a call expression carries no
extractable metadata in `_parse_field` and is modelled as `none`; a call
whose function is not a plain name has `funcName = none`. -/

/-- A `Field(...)` (or other) call in a field initializer: keyword
arguments carry the keyword name, the constant string value when the value
node is a string constant, and the `ast.unparse` text. -/
structure KwArg where
  name : String
  constStr : Option String
  unparsed : String
deriving Repr, DecidableEq

/-- A call-expression initializer (`ast.Call`). -/
structure CallNode where
  funcName : Option String
  kwargs : List KwArg
  posArgs : List String
deriving Repr, DecidableEq

/-- An annotated assignment (`ast.AnnAssign`) with a plain-name target. -/
structure AnnAssignNode where
  target : String
  annotation : String
  value : Option CallNode
deriving Repr, DecidableEq

/-- One statement of a class body, as `_parse_class` distinguishes them:
plain assignments (target names plus unparsed value text), function
definitions (plain-name decorator list), annotated assignments, anything
else. -/
inductive BodyItem where
  | assign (targets : List String) (valueText : String)
  | funcdef (decoratorNames : List String)
  | annAssign (node : AnnAssignNode)
  | other
deriving Repr, DecidableEq

/-- A `ClassDef` node: name, docstring (the result of `ast.get_docstring`,
empty when absent), base-class names, body statements. -/
structure ClassDefNode where
  name : String
  docstring : String
  bases : List String
  body : List BodyItem
deriving Repr, DecidableEq

/-- A parsed module: its `ClassDef` nodes in `ast.walk` order. -/
structure ModuleTree where
  classes : List ClassDefNode
deriving Repr, DecidableEq

/-- `SchemaParser._parse_field`: always succeeds except for the
`model_config` attribute; the annotation text is carried verbatim as the
type hint, and `Field(...)` metadata is extracted when present. -/
def parseField (n : AnnAssignNode) : Option FieldInfo :=
  if n.target == "model_config" then none
  else
    let meta :=
      match n.value with
      | some call =>
        if call.funcName == some "Field" then
          let desc := call.kwargs.foldl
            (fun (acc : String) (kw : KwArg) =>
              if kw.name == "description" then
                match kw.constStr with
                | some s => s
                | none => acc
              else acc) ""
          let cons := call.kwargs.foldl
            (fun (acc : List (String × String)) (kw : KwArg) =>
              if kw.name == "ge" || kw.name == "le" || kw.name == "min_length" || kw.name == "max_length" then
                acc ++ [(kw.name, kw.unparsed)]
              else acc) []
          let dfKw := call.kwargs.foldl
            (fun (acc : Option String) (kw : KwArg) =>
              if kw.name == "default_factory" then some "default_factory" else acc)
            (none : Option String)
          let df :=
            match call.posArgs with
            | first :: _ => if first == "..." then dfKw else some first
            | [] => dfKw
          (desc, df, cons)
        else ("", none, [])
      | none => ("", none, [])
    some { name := n.target, type_hint := n.annotation,
           description := meta.1, default := meta.2.1, constraints := meta.2.2 }

/-- The frozen-flag fold of `_parse_class`: each `model_config` assignment
whose text mentions `frozen` overwrites the flag with the result of the
`frozen=True` / `frozen = True` substring test. -/
def frozenStep (acc : Bool) (item : BodyItem) : Bool :=
  match item with
  | .assign targets valueText =>
    if targets.contains "model_config" then
      if hasSubStr valueText "frozen" then
        hasSubStr valueText "frozen=True" || hasSubStr valueText "frozen = True"
      else acc
    else acc
  | _ => acc

/-- A body statement that assigns to `model_config` (the only kind of
statement the frozen-flag fold reacts to). -/
def isConfigAssign : BodyItem → Bool
  | .assign targets _ => targets.contains "model_config"
  | _ => false

/-- `SchemaParser._parse_class`. -/
def parseClass (c : ClassDefNode) : SchemaInfo :=
  { name := c.name,
    docstring := c.docstring,
    fields := c.body.filterMap (fun item =>
      match item with
      | .annAssign n => parseField n
      | _ => none),
    is_frozen := c.body.foldl frozenStep true,
    has_properties := c.body.any (fun item =>
      match item with
      | .funcdef decs => decs.contains "property"
      | _ => false) }

/-- `SchemaParser.parse_schemas`: every `ClassDef` with `BaseModel` among
its plain-name bases is parsed; everything else is skipped silently. -/
def parseSchemas (t : ModuleTree) : List SchemaInfo :=
  t.classes.filterMap (fun c =>
    if c.bases.contains "BaseModel" then some (parseClass c) else none)

/-! ## `main`: the full generation run -/

/-- The `doc_schemas` list from `main` (the records that get their own
documentation page). -/
def docSchemas : List String :=
  ["CommentScore", "SpamDetectionResult", "CommentRelevanceResult",
   "DogwhistleResult", "MegaCallResult", "InitTopicResponse"]

/-- `main`: parse once, then emit one PHP file per schema and one markdown
file per main schema (with `generate_doc`'s default navigation-order 1).
Returns the two artifact lists as (file name, file content) pairs. -/
def runPipeline (t : ModuleTree) : List (String × String) × List (String × String) :=
  let schemas := parseSchemas t
  (schemas.map (fun s => (s.name ++ ".php", generateClass schemas s)),
   schemas.filterMap (fun s =>
     if docSchemas.contains s.name then some (s.name ++ ".md", generateDoc schemas s 1)
     else none))

/-! ## Supported-shape predicate for type hints

The extractor imposes no grammar on annotations, but the spec's supported
subset is `name`, `List[name]`, `Optional[name]` with `name` a nonempty
identifier (`\w+`).  `goodHint` decides membership in that subset. -/

/-- The char list is nonempty and all of its characters are word
characters. -/
def isWordlikeL (l : List Char) : Bool := !l.isEmpty && l.all isWordChar

/-- The string is a nonempty identifier (`\w+`). -/
def isWordlike (s : String) : Bool := isWordlikeL s.data

/-- After the first (word) character: more word characters then `]`. -/
def midTail : List Char → Bool
  | [] => false
  | [c] => c == ']'
  | c :: rest => isWordChar c && midTail rest

/-- The char list is `R ++ [']']` for a nonempty all-word `R`. -/
def midOk : List Char → Bool
  | [] => false
  | c :: rest => isWordChar c && midTail rest

/-- The string is `pre ++ R ++ "]"` for a nonempty identifier `R`, where
`pre` is a wrapper head such as `"List["`. -/
def isWrapOf (pre : List Char) (s : String) : Bool :=
  pre.isPrefixOf s.data && midOk (s.data.drop pre.length)

/-- The type hint lies in the supported one-level grammar:
a bare identifier, `List[ident]`, or `Optional[ident]`. -/
def goodHint (s : String) : Bool :=
  isWordlike s || isWrapOf ("List[".data) s || isWrapOf ("Optional[".data) s

/-! ## Concrete fixtures for counterexamples and witnesses -/

/-- A two-integer-field record (the spec's `Point` scenario). -/
def pointSchema : SchemaInfo :=
  { name := "Point", docstring := "A 2D point.",
    fields := [{ name := "x", type_hint := "int", description := "X coordinate",
                 default := none, constraints := [] },
               { name := "y", type_hint := "int", description := "Y coordinate",
                 default := none, constraints := [] }],
    is_frozen := true, has_properties := false }

/-- A record whose single field's annotation text is outside the supported
one-level grammar (`List[Dict[str, int]]`). -/
def nestedListSchema : SchemaInfo :=
  { name := "Payload", docstring := "A payload.",
    fields := [{ name := "data", type_hint := "List[Dict[str, int]]",
                 description := "Raw rows", default := none, constraints := [] }],
    is_frozen := true, has_properties := false }

/-- A field that is a bare required reference to the known record `Point`. -/
def cornerReqField : FieldInfo :=
  { name := "corner", type_hint := "Point", description := "The corner",
    default := none, constraints := [] }

/-- A field typed `List[bool]` (list of a recognized scalar primitive). -/
def flagsField : FieldInfo :=
  { name := "flags", type_hint := "List[bool]", description := "Flags",
    default := none, constraints := [] }

/-- A registry entry named like an inline subtype, for link-resolver tests. -/
def lfSchema : SchemaInfo :=
  { name := "LogicalFallacy", docstring := "", fields := [],
    is_frozen := true, has_properties := false }

/-- A registry entry named `Inner` (no primitive-name substring). -/
def innerSchema : SchemaInfo :=
  { name := "Inner", docstring := "", fields := [],
    is_frozen := true, has_properties := false }

/-- A class-definition node whose field's annotation is outside the
supported grammar; extraction is expected (by the spec) to fail on it. -/
def nestedListClassNode : ClassDefNode :=
  { name := "Payload", docstring := "A payload.", bases := ["BaseModel"],
    body := [BodyItem.annAssign
      { target := "data", annotation := "List[List[int]]", value := none }] }

/-- A class whose `model_config` text does not mention the frozen flag. -/
def noFrozenClassNode : ClassDefNode :=
  { name := "Model", docstring := "", bases := ["BaseModel"],
    body := [BodyItem.assign ["model_config"] "ConfigDict(validate_assignment=True)"] }

/-- A module containing a single main-schema class with no fields. -/
def soloCommentScoreTree : ModuleTree :=
  { classes := [{ name := "CommentScore", docstring := "Score of a comment.",
                  bases := ["BaseModel"], body := [] }] }

/-! ## Basic lemmas about the string primitives -/

theorem data_append (a b : String) : (a ++ b).data = a.data ++ b.data := rfl

theorem nil_isPrefixOf : ∀ (t : List Char), ([] : List Char).isPrefixOf t = true
  | [] => rfl
  | _ :: _ => rfl

theorem isPrefixOf_self_append : ∀ (l t : List Char), l.isPrefixOf (l ++ t) = true
  | [], t => nil_isPrefixOf t
  | c :: cs, t => by
    simp only [List.cons_append, List.isPrefixOf, beq_self_eq_true, Bool.true_and]
    exact isPrefixOf_self_append cs t

theorem isPrefixOf_eq_true_iff : ∀ (p l : List Char), p.isPrefixOf l = true ↔ ∃ t, l = p ++ t
  | [], l => by simp [List.isPrefixOf]
  | p :: ps, [] => by simp [List.isPrefixOf]
  | p :: ps, c :: cs => by
    simp only [List.isPrefixOf, Bool.and_eq_true, beq_iff_eq]
    constructor
    · rintro ⟨rfl, h⟩
      obtain ⟨t, rfl⟩ := (isPrefixOf_eq_true_iff ps cs).mp h
      exact ⟨t, rfl⟩
    · rintro ⟨t, ht⟩
      cases ht
      exact ⟨rfl, (isPrefixOf_eq_true_iff ps (ps ++ t)).mpr ⟨t, rfl⟩⟩

theorem hasSubL_nil_pat : ∀ (t : List Char), hasSubL t [] = true
  | [] => rfl
  | _ :: _ => by simp [hasSubL, List.isPrefixOf]

theorem hasSubL_append_self : ∀ (pat t : List Char), hasSubL (pat ++ t) pat = true
  | [], t => hasSubL_nil_pat t
  | p :: ps, t => by
    simp only [List.cons_append, hasSubL, Bool.or_eq_true]
    exact Or.inl (isPrefixOf_self_append (p :: ps) (p :: (ps ++ t)) ▸
      isPrefixOf_self_append (p :: ps) t)

theorem mem_of_hasSubL : ∀ (s pat : List Char), hasSubL s pat = true → ∀ c ∈ pat, c ∈ s
  | [], pat, h => by
    intro c hc
    simp only [hasSubL, List.isEmpty_iff] at h
    subst h
    cases hc
  | a :: s, pat, h => by
    intro c hc
    simp only [hasSubL, Bool.or_eq_true] at h
    rcases h with h | h
    · obtain ⟨t, ht⟩ := (isPrefixOf_eq_true_iff pat (a :: s)).mp h
      rw [ht]
      exact List.mem_append_left t hc
    · exact List.mem_cons_of_mem a (mem_of_hasSubL s pat h c hc)

theorem hasSubL_eq_false_of_not_mem (s pat : List Char) (c : Char)
    (hc : c ∈ pat) (hs : c ∉ s) : hasSubL s pat = false := by
  cases h : hasSubL s pat with
  | false => rfl
  | true => exact absurd (mem_of_hasSubL s pat h c hc) hs

theorem hasSubL_cons_false {c : Char} {s pat : List Char}
    (h1 : pat.isPrefixOf (c :: s) = false) (h2 : hasSubL s pat = false) :
    hasSubL (c :: s) pat = false := by
  simp [hasSubL, h1, h2]

/-- No pattern containing `[` occurs in all-word text followed by `]`. -/
theorem hasSubL_word_bracket_false (pat : List Char) (hpat : '[' ∈ pat)
    (n : List Char) (hn : ∀ c ∈ n, isWordChar c = true) :
    hasSubL (n ++ [']']) pat = false := by
  refine hasSubL_eq_false_of_not_mem _ _ '[' hpat ?_
  intro hmem
  rcases List.mem_append.mp hmem with h | h
  · have := hn _ h
    simp [isWordChar] at this
  · simp at h

/-- No pattern containing `[` occurs in all-word text. -/
theorem hasSubL_word_false (pat : List Char) (hpat : '[' ∈ pat)
    (n : List Char) (hn : ∀ c ∈ n, isWordChar c = true) :
    hasSubL n pat = false := by
  refine hasSubL_eq_false_of_not_mem _ _ '[' hpat ?_
  intro hmem
  have := hn _ hmem
  simp [isWordChar] at this

/-- `'List[' in 'Optional[R]'` is false for an identifier `R`. -/
theorem listHead_not_in_optWrap (n : List Char) (hn : ∀ c ∈ n, isWordChar c = true) :
    hasSubL ("Optional[".data ++ (n ++ [']'])) "List[".data = false := by
  show hasSubL ('O' :: 'p' :: 't' :: 'i' :: 'o' :: 'n' :: 'a' :: 'l' :: '[' :: (n ++ [']']))
      "List[".data = false
  exact hasSubL_cons_false rfl (hasSubL_cons_false rfl (hasSubL_cons_false rfl
    (hasSubL_cons_false rfl (hasSubL_cons_false rfl (hasSubL_cons_false rfl
    (hasSubL_cons_false rfl (hasSubL_cons_false rfl (hasSubL_cons_false rfl
    (hasSubL_word_bracket_false _ (by decide) n hn)))))))))

/-- `'Optional[' in 'List[R]'` is false for an identifier `R`. -/
theorem optHead_not_in_listWrap (n : List Char) (hn : ∀ c ∈ n, isWordChar c = true) :
    hasSubL ("List[".data ++ (n ++ [']'])) "Optional[".data = false := by
  show hasSubL ('L' :: 'i' :: 's' :: 't' :: '[' :: (n ++ [']'])) "Optional[".data = false
  exact hasSubL_cons_false rfl (hasSubL_cons_false rfl (hasSubL_cons_false rfl
    (hasSubL_cons_false rfl (hasSubL_cons_false rfl
    (hasSubL_word_bracket_false _ (by decide) n hn)))))

/-- Unpack `isWordlike`. -/
theorem isWordlike_spec (s : String) (h : isWordlike s = true) :
    s.data ≠ [] ∧ ∀ c ∈ s.data, isWordChar c = true := by
  rw [isWordlike, isWordlikeL, Bool.and_eq_true] at h
  refine ⟨?_, ?_⟩
  · intro hnil
    rw [hnil] at h
    simp at h
  · intro c hc
    exact List.all_eq_true.mp h.2 c hc

/-! ## Behavior of `pyReplace` on the supported shapes -/

theorem replaceFuel_id (pat rep : List Char) :
    ∀ (fuel : Nat) (s : List Char), hasSubL s pat = false → replaceFuel pat rep fuel s = s
  | fuel, [], _ => by cases fuel <;> rfl
  | 0, _ :: _, _ => rfl
  | fuel + 1, c :: rest, h => by
    simp only [hasSubL, Bool.or_eq_false_iff] at h
    simp only [replaceFuel, h.1, Bool.false_eq_true, if_false]
    exact congrArg (c :: ·) (replaceFuel_id pat rep fuel rest h.2)

theorem replaceFuel_strip_head (pre : List Char) (c : Char) (cs : List Char)
    (hpre : pre = c :: cs) (n : List Char)
    (hn : hasSubL n pre = false) :
    ∀ f, replaceFuel pre [] (f + 1) (pre ++ n) = n := by
  intro f
  subst hpre
  show replaceFuel (c :: cs) [] (f + 1) (c :: (cs ++ n)) = n
  have hp : (c :: cs).isPrefixOf (c :: (cs ++ n)) = true := isPrefixOf_self_append (c :: cs) n
  simp only [replaceFuel, hp, if_true, List.nil_append]
  have hdrop : (c :: (cs ++ n)).drop (c :: cs).length = n := by
    show ((c :: cs) ++ n).drop (c :: cs).length = n
    exact List.drop_left _ _
  rw [hdrop]
  exact replaceFuel_id _ _ _ _ hn

theorem replaceFuel_drop_close : ∀ (n : List Char), (∀ c ∈ n, isWordChar c = true) →
    ∀ fuel, n.length + 1 ≤ fuel → replaceFuel [']'] [] fuel (n ++ [']']) = n
  | [], _, fuel, hf => by
    obtain ⟨f, rfl⟩ : ∃ f, fuel = f + 1 := ⟨fuel - 1, by omega⟩
    show replaceFuel [']'] [] (f + 1) (']' :: []) = []
    simp [replaceFuel, nil_isPrefixOf]
  | c :: n, hn, fuel, hf => by
    obtain ⟨f, rfl⟩ : ∃ f, fuel = f + 1 := ⟨fuel - 1, by omega⟩
    show replaceFuel [']'] [] (f + 1) (c :: (n ++ [']'])) = c :: n
    have hc : isWordChar c = true := hn c (List.mem_cons_self c n)
    have hne : (']' == c) = false := by
      apply beq_eq_false_iff_ne.mpr
      intro he
      rw [← he] at hc
      simp [isWordChar] at hc
    have hp : ([']'] : List Char).isPrefixOf (c :: (n ++ [']'])) = false := by
      simp [List.isPrefixOf, hne]
    simp only [replaceFuel, hp, Bool.false_eq_true, if_false]
    refine congrArg (c :: ·) (replaceFuel_drop_close n ?_ f ?_)
    · exact fun d hd => hn d (List.mem_cons_of_mem c hd)
    · simp only [List.length_cons] at hf
      omega

/-- No occurrence of `]` in all-word text. -/
theorem hasSubL_close_word_false (l : List Char) (hl : ∀ c ∈ l, isWordChar c = true) :
    hasSubL l "]".data = false := by
  refine hasSubL_eq_false_of_not_mem _ _ ']' (by decide) ?_
  intro hmem
  have := hl _ hmem
  simp [isWordChar] at this

/-- `hint.replace('Optional[','').replace(']','')` leaves an identifier
unchanged. -/
theorem typeClean_plain (n : String) (h : isWordlike n = true) :
    pyReplace (pyReplace n "Optional[" "") "]" "" = n := by
  obtain ⟨-, hw⟩ := isWordlike_spec n h
  have h1 : pyReplace n "Optional[" "" = n := by
    show (⟨replaceFuel "Optional[".data [] n.data.length n.data⟩ : String) = n
    rw [replaceFuel_id _ _ _ _ (hasSubL_word_false _ (by decide) _ hw)]
  rw [h1]
  show (⟨replaceFuel "]".data [] n.data.length n.data⟩ : String) = n
  rw [replaceFuel_id _ _ _ _ (hasSubL_close_word_false n.data hw)]

theorem typeClean_opt (n : String) (h : isWordlike n = true) :
    pyReplace (pyReplace ("Optional[" ++ (n ++ "]")) "Optional[" "") "]" "" = n := by
  obtain ⟨hne, hw⟩ := isWordlike_spec n h
  have hn1 : hasSubL (n.data ++ [']']) "Optional[".data = false :=
    hasSubL_word_bracket_false _ (by decide) _ hw
  have h1 : pyReplace ("Optional[" ++ (n ++ "]")) "Optional[" "" = ⟨n.data ++ [']']⟩ := by
    show (⟨replaceFuel "Optional[".data [] (("Optional[" ++ (n ++ "]")).data.length)
            (("Optional[" ++ (n ++ "]")).data)⟩ : String) = _
    have hd : ("Optional[" ++ (n ++ "]")).data = "Optional[".data ++ (n.data ++ [']']) := rfl
    have hl : ("Optional[" ++ (n ++ "]")).data.length = ((n.data ++ [']']).length + 8) + 1 := by
      rw [hd]
      simp
    rw [hl, hd, replaceFuel_strip_head "Optional[".data 'O' "ptional[".data rfl _ hn1]
  rw [h1]
  show (⟨replaceFuel "]".data [] ((n.data ++ [']']).length) (n.data ++ [']'])⟩ : String) = n
  have hl2 : (n.data ++ [']']).length = n.data.length + 1 := by simp
  rw [hl2, replaceFuel_drop_close n.data hw (n.data.length + 1) (by omega)]

/-! ## Behavior of the regex searches on the supported shapes -/

theorem takeWhile_word_append : ∀ (n : List Char), (∀ c ∈ n, isWordChar c = true) →
    ∀ (t : List Char),
      (n ++ ']' :: t).takeWhile isWordChar = n ∧ (n ++ ']' :: t).dropWhile isWordChar = ']' :: t
  | [], _, t => by
    constructor
    · show ((']' :: t).takeWhile isWordChar) = []
      rw [List.takeWhile_cons]
      simp [isWordChar]
    · show ((']' :: t).dropWhile isWordChar) = ']' :: t
      rw [List.dropWhile_cons]
      simp [isWordChar]
  | c :: n, hn, t => by
    have hc : isWordChar c = true := hn c (List.mem_cons_self c n)
    obtain ⟨ih1, ih2⟩ := takeWhile_word_append n (fun d hd => hn d (List.mem_cons_of_mem c hd)) t
    constructor
    · show ((c :: (n ++ ']' :: t)).takeWhile isWordChar) = c :: n
      rw [List.takeWhile_cons, hc]
      simp [ih1]
    · show ((c :: (n ++ ']' :: t)).dropWhile isWordChar) = ']' :: t
      rw [List.dropWhile_cons, hc]
      simp [ih2]

theorem tryWrapAt_wrap (pat n t : List Char) (hne : n ≠ [])
    (hn : ∀ c ∈ n, isWordChar c = true) :
    tryWrapAt pat (pat ++ '[' :: (n ++ ']' :: t)) = some n := by
  have hs : pat ++ '[' :: (n ++ ']' :: t) = (pat ++ ['[']) ++ (n ++ ']' :: t) := by simp
  have hlen : pat.length + 1 = (pat ++ ['[']).length := by simp
  obtain ⟨tw, dw⟩ := takeWhile_word_append n hn t
  have hemp : n.isEmpty = false := by
    cases n with
    | nil => exact absurd rfl hne
    | cons a l => rfl
  unfold tryWrapAt
  rw [hs, isPrefixOf_self_append, hlen, List.drop_left]
  simp [tw, dw, hemp]

theorem searchWrapL_head (pat n t : List Char) (hpat : pat ≠ []) (hne : n ≠ [])
    (hn : ∀ c ∈ n, isWordChar c = true) :
    searchWrapL pat (pat ++ '[' :: (n ++ ']' :: t)) = some n := by
  match pat, hpat with
  | p :: ps, _ =>
    show searchWrapL (p :: ps) (p :: (ps ++ '[' :: (n ++ ']' :: t))) = some n
    have heq : p :: (ps ++ '[' :: (n ++ ']' :: t)) = (p :: ps) ++ '[' :: (n ++ ']' :: t) := rfl
    simp only [searchWrapL]
    rw [heq, tryWrapAt_wrap _ _ _ hne hn]

theorem tryWrapAt_none_of_prefix_false (pat s : List Char)
    (h : (pat ++ ['[']).isPrefixOf s = false) : tryWrapAt pat s = none := by
  unfold tryWrapAt
  simp [h]

theorem searchWrapL_none (pat : List Char) :
    ∀ s, hasSubL s (pat ++ ['[']) = false → searchWrapL pat s = none
  | [], _ => rfl
  | c :: rest, h => by
    simp only [hasSubL, Bool.or_eq_false_iff] at h
    simp only [searchWrapL, tryWrapAt_none_of_prefix_false pat _ h.1]
    exact searchWrapL_none pat rest h.2

theorem searchEitherL_noList :
    ∀ s, hasSubL s ("List[".data) = false → searchEitherL s = searchWrapL optPat s
  | [], _ => rfl
  | c :: rest, h => by
    simp only [hasSubL, Bool.or_eq_false_iff] at h
    have hL : tryWrapAt listPat (c :: rest) = none := by
      refine tryWrapAt_none_of_prefix_false _ _ ?_
      exact h.1
    simp only [searchEitherL, searchWrapL, hL]
    cases hO : tryWrapAt optPat (c :: rest) with
    | some r => rfl
    | none => exact searchEitherL_noList rest h.2

theorem searchListInner_listWrap (n : String) (h : isWordlike n = true) :
    searchListInner ("List[" ++ (n ++ "]")) = some n := by
  obtain ⟨hne, hw⟩ := isWordlike_spec n h
  show (searchWrapL listPat (listPat ++ '[' :: (n.data ++ ']' :: []))).map _ = some n
  rw [searchWrapL_head listPat n.data [] (by decide) hne hw]
  rfl

theorem searchOptionalInner_optWrap (n : String) (h : isWordlike n = true) :
    searchOptionalInner ("Optional[" ++ (n ++ "]")) = some n := by
  obtain ⟨hne, hw⟩ := isWordlike_spec n h
  show (searchWrapL optPat (optPat ++ '[' :: (n.data ++ ']' :: []))).map _ = some n
  rw [searchWrapL_head optPat n.data [] (by decide) hne hw]
  rfl

theorem searchListInner_plain_none (n : String) (h : isWordlike n = true) :
    searchListInner n = none := by
  obtain ⟨-, hw⟩ := isWordlike_spec n h
  show (searchWrapL listPat n.data).map _ = none
  rw [searchWrapL_none listPat n.data (hasSubL_word_false _ (by decide) _ hw)]
  rfl

theorem searchOptionalInner_plain_none (n : String) (h : isWordlike n = true) :
    searchOptionalInner n = none := by
  obtain ⟨-, hw⟩ := isWordlike_spec n h
  show (searchWrapL optPat n.data).map _ = none
  rw [searchWrapL_none optPat n.data (hasSubL_word_false _ (by decide) _ hw)]
  rfl

theorem getInnerType_listWrap (n : String) (h : isWordlike n = true) :
    getInnerType ("List[" ++ (n ++ "]")) = some n := by
  obtain ⟨hne, hw⟩ := isWordlike_spec n h
  show (searchEitherL ('L' :: ('i' :: 's' :: 't' :: '[' :: (n.data ++ ']' :: [])))).map _ = some n
  simp only [searchEitherL]
  have heq : 'L' :: 'i' :: 's' :: 't' :: '[' :: (n.data ++ ']' :: []) =
      listPat ++ '[' :: (n.data ++ ']' :: []) := rfl
  rw [heq, tryWrapAt_wrap listPat n.data [] hne hw]
  rfl

theorem getInnerType_optWrap (n : String) (h : isWordlike n = true) :
    getInnerType ("Optional[" ++ (n ++ "]")) = some n := by
  obtain ⟨hne, hw⟩ := isWordlike_spec n h
  show (searchEitherL ("Optional[".data ++ (n.data ++ [']']))).map _ = some n
  rw [searchEitherL_noList _ (listHead_not_in_optWrap n.data hw)]
  show (searchWrapL optPat (optPat ++ '[' :: (n.data ++ ']' :: []))).map _ = some n
  rw [searchWrapL_head optPat n.data [] (by decide) hne hw]
  rfl

theorem getInnerType_plain (n : String) (h : isWordlike n = true) :
    getInnerType n = none := by
  obtain ⟨-, hw⟩ := isWordlike_spec n h
  show (searchEitherL n.data).map _ = none
  rw [searchEitherL_noList _ (hasSubL_word_false _ (by decide) _ hw),
    searchWrapL_none optPat n.data (hasSubL_word_false _ (by decide) _ hw)]
  rfl

/-! ## `hasSubStr` and `phpType` on the supported shapes -/

theorem hasSubStr_listWrap_list (n : String) :
    hasSubStr ("List[" ++ (n ++ "]")) "List[" = true := by
  show hasSubL ("List[".data ++ (n.data ++ [']'])) "List[".data = true
  exact hasSubL_append_self _ _

theorem hasSubStr_optWrap_opt (n : String) :
    hasSubStr ("Optional[" ++ (n ++ "]")) "Optional[" = true := by
  show hasSubL ("Optional[".data ++ (n.data ++ [']'])) "Optional[".data = true
  exact hasSubL_append_self _ _

theorem hasSubStr_optWrap_list_false (n : String) (h : isWordlike n = true) :
    hasSubStr ("Optional[" ++ (n ++ "]")) "List[" = false := by
  obtain ⟨-, hw⟩ := isWordlike_spec n h
  exact listHead_not_in_optWrap n.data hw

theorem hasSubStr_listWrap_opt_false (n : String) (h : isWordlike n = true) :
    hasSubStr ("List[" ++ (n ++ "]")) "Optional[" = false := by
  obtain ⟨-, hw⟩ := isWordlike_spec n h
  exact optHead_not_in_listWrap n.data hw

theorem hasSubStr_plain_bracket_false (n pat : String) (h : isWordlike n = true)
    (hb : '[' ∈ pat.data) : hasSubStr n pat = false := by
  obtain ⟨-, hw⟩ := isWordlike_spec n h
  exact hasSubL_word_false pat.data hb n.data hw

theorem phpType_plain (n : String) (h : isWordlike n = true) : phpType n = phpBase n := by
  unfold phpType
  rw [hasSubStr_plain_bracket_false n "List[" h (by decide),
    typeClean_plain n h,
    hasSubStr_plain_bracket_false n "Optional[" h (by decide)]
  simp

theorem phpType_listWrap (n : String) : phpType ("List[" ++ (n ++ "]")) = "array" := by
  unfold phpType
  rw [hasSubStr_listWrap_list]
  simp

theorem phpType_optWrap (n : String) (h : isWordlike n = true) :
    phpType ("Optional[" ++ (n ++ "]")) = "?" ++ phpBase n := by
  unfold phpType
  rw [hasSubStr_optWrap_list_false n h, typeClean_opt n h, hasSubStr_optWrap_opt]
  simp

/-! ## Inversion of the supported-shape predicate -/

theorem string_eq_of_data (s t : String) (h : s.data = t.data) : s = t := by
  cases s
  cases t
  rw [show ({ data := _ } : String) = _ from rfl]
  exact congrArg String.mk h

theorem midTail_spec : ∀ t, midTail t = true →
    ∃ R, (∀ c ∈ R, isWordChar c = true) ∧ t = R ++ [']']
  | [], h => by simp [midTail] at h
  | [c], h => by
    simp only [midTail, beq_iff_eq] at h
    exact ⟨[], by simp, by simp [h]⟩
  | c :: d :: t, h => by
    simp only [midTail, Bool.and_eq_true] at h
    obtain ⟨R, hR, ht⟩ := midTail_spec (d :: t) h.2
    refine ⟨c :: R, ?_, by simp [ht]⟩
    intro x hx
    rcases List.mem_cons.mp hx with rfl | hx
    · exact h.1
    · exact hR x hx

theorem midOk_spec : ∀ t, midOk t = true →
    ∃ R, R ≠ [] ∧ (∀ c ∈ R, isWordChar c = true) ∧ t = R ++ [']']
  | [], h => by simp [midOk] at h
  | c :: rest, h => by
    simp only [midOk, Bool.and_eq_true] at h
    obtain ⟨R, hR, ht⟩ := midTail_spec rest h.2
    refine ⟨c :: R, by simp, ?_, by simp [ht]⟩
    intro x hx
    rcases List.mem_cons.mp hx with rfl | hx
    · exact h.1
    · exact hR x hx

theorem isWrapOf_spec (pre : List Char) (s : String) (h : isWrapOf pre s = true) :
    ∃ R : String, isWordlike R = true ∧ s.data = pre ++ (R.data ++ [']']) := by
  rw [isWrapOf, Bool.and_eq_true] at h
  obtain ⟨t, ht⟩ := (isPrefixOf_eq_true_iff pre s.data).mp h.1
  have h2 := h.2
  rw [ht, List.drop_left] at h2
  obtain ⟨R, hne, hw, hR⟩ := midOk_spec t h2
  refine ⟨⟨R⟩, ?_, by rw [ht, hR]⟩
  show isWordlikeL R = true
  rw [isWordlikeL, Bool.and_eq_true]
  constructor
  · cases R with
    | nil => exact absurd rfl hne
    | cons a l => rfl
  · exact List.all_eq_true.mpr hw

theorem goodHint_spec (s : String) (h : goodHint s = true) :
    isWordlike s = true ∨
    (∃ R : String, isWordlike R = true ∧ s = "List[" ++ (R ++ "]")) ∨
    (∃ R : String, isWordlike R = true ∧ s = "Optional[" ++ (R ++ "]")) := by
  rw [goodHint, Bool.or_eq_true, Bool.or_eq_true] at h
  rcases h with (h | h) | h
  · exact Or.inl h
  · obtain ⟨R, hR, hd⟩ := isWrapOf_spec _ _ h
    refine Or.inr (Or.inl ⟨R, hR, string_eq_of_data _ _ ?_⟩)
    rw [hd]
    rfl
  · obtain ⟨R, hR, hd⟩ := isWrapOf_spec _ _ h
    refine Or.inr (Or.inr ⟨R, hR, string_eq_of_data _ _ ?_⟩)
    rw [hd]
    rfl

/-! ## Line classification in the generated class -/

theorem strStartsWith_append (p t : String) : strStartsWith (p ++ t) p = true := by
  rw [strStartsWith, data_append]
  exact isPrefixOf_self_append _ _

theorem lastIsSemicolon_of_data (s : String) (l : List Char)
    (h : s.data = l ++ [';']) : lastIsSemicolon s = true := by
  rw [lastIsSemicolon, h, List.getLast?_concat]
  rfl

theorem isPropLine_propertyLine (f : FieldInfo) : isPropLine (propertyLine f) = true := by
  have h1 : strStartsWith (propertyLine f) "    public " = true := by
    rw [propertyLine]
    exact strStartsWith_append _ _
  have h2 : lastIsSemicolon (propertyLine f) = true := by
    refine lastIsSemicolon_of_data _
      ("    public ".data ++ ((phpType f.type_hint).data ++ (" $".data ++ (phpName f.name).data))) ?_
    show "    public ".data ++
      ((phpType f.type_hint).data ++ (" $".data ++ ((phpName f.name).data ++ [';']))) = _
    simp [List.append_assoc]
  rw [isPropLine, h1, h2]
  rfl

theorem filter_isProp_header (s : SchemaInfo) :
    (classHeaderLines s).filter isPropLine = [] := rfl

theorem filter_isAssign_header (s : SchemaInfo) :
    (classHeaderLines s).filter isAssignLine = [] := rfl

theorem filter_isProp_ctor (s : SchemaInfo) :
    (ctorHeaderLines s).filter isPropLine = [] := rfl

theorem filter_isAssign_ctor (s : SchemaInfo) :
    (ctorHeaderLines s).filter isAssignLine = [] := rfl

theorem filter_isProp_footer : classFooterLines.filter isPropLine = [] := rfl

theorem filter_isAssign_footer : classFooterLines.filter isAssignLine = [] := rfl

theorem filter_isProp_propBlock (f : FieldInfo) :
    (propBlock f).filter isPropLine = [propertyLine f] := by
  have e1 : isPropLine "" = false := rfl
  have e2 : isPropLine "    /**" = false := rfl
  have e3 : isPropLine ("     * " ++ f.description) = false := rfl
  have e4 : isPropLine ("     * Constraints: " ++ constraintDoc f) = false := rfl
  have e5 : isPropLine "     */" = false := rfl
  have e6 := isPropLine_propertyLine f
  by_cases hc : f.constraints.isEmpty = true <;>
    simp [propBlock, hc, List.filter_cons, e1, e2, e3, e4, e5, e6]

theorem filter_isAssign_propBlock (f : FieldInfo) :
    (propBlock f).filter isAssignLine = [] := by
  have e1 : isAssignLine "" = false := rfl
  have e2 : isAssignLine "    /**" = false := rfl
  have e3 : isAssignLine ("     * " ++ f.description) = false := rfl
  have e4 : isAssignLine ("     * Constraints: " ++ constraintDoc f) = false := rfl
  have e5 : isAssignLine "     */" = false := rfl
  have e6 : isAssignLine (propertyLine f) = false := rfl
  by_cases hc : f.constraints.isEmpty = true <;>
    simp [propBlock, hc, List.filter_cons, e1, e2, e3, e4, e5, e6]

/-- Every possible hydration statement starts with `        $this->` (and so
is an assignment line, not a property declaration). -/
theorem thisArrow_line_shape (x l : String) (hl : l ∈ ["        $this->" ++ x]) :
    isAssignLine l = true ∧ isPropLine l = false := by
  rw [List.mem_singleton] at hl
  subst hl
  exact ⟨strStartsWith_append _ _, rfl⟩

/-- Every hydration statement is an assignment line and not a property
declaration. -/
theorem hydration_line_shape (schemas : List SchemaInfo) (f : FieldInfo) :
    ∀ l ∈ hydrationLines schemas f, isAssignLine l = true ∧ isPropLine l = false := by
  intro l hl
  unfold hydrationLines at hl
  cases h1 : phpType f.type_hint == "array" with
  | true =>
    simp only [h1, if_true] at hl
    cases h2 : hasSubStr f.type_hint "List[" with
    | true =>
      simp only [h2, if_true] at hl
      cases h3 : searchListInner f.type_hint with
      | some innerClass =>
        rw [h3] at hl
        cases h4 : (schemaLookup schemas innerClass).isSome with
        | true =>
          simp only [h4, if_true] at hl
          exact thisArrow_line_shape _ l hl
        | false =>
          simp only [h4, Bool.false_eq_true, if_false] at hl
          exact thisArrow_line_shape _ l hl
      | none =>
        rw [h3] at hl
        simp at hl
    | false =>
      simp only [h2, Bool.false_eq_true, if_false] at hl
      exact thisArrow_line_shape _ l hl
  | false =>
    simp only [h1, Bool.false_eq_true, if_false] at hl
    cases h2 : (phpType f.type_hint == "int" || phpType f.type_hint == "float" ||
        phpType f.type_hint == "bool" || phpType f.type_hint == "string") with
    | true =>
      simp only [h2, if_true] at hl
      cases h3 : phpType f.type_hint == "float" with
      | true =>
        simp only [h3, if_true] at hl
        exact thisArrow_line_shape _ l hl
      | false =>
        simp only [h3, Bool.false_eq_true, if_false] at hl
        exact thisArrow_line_shape _ l hl
    | false =>
      simp only [h2, Bool.false_eq_true, if_false] at hl
      cases h3 : hasSubStr f.type_hint "Optional[" with
      | true =>
        simp only [h3, if_true] at hl
        cases h4 : searchOptionalInner f.type_hint with
        | some innerClass =>
          rw [h4] at hl
          cases h5 : (schemaLookup schemas innerClass).isSome with
          | true =>
            simp only [h5, if_true] at hl
            exact thisArrow_line_shape _ l hl
          | false =>
            simp only [h5, Bool.false_eq_true, if_false] at hl
            exact thisArrow_line_shape _ l hl
        | none =>
          rw [h4] at hl
          simp at hl
      | false =>
        simp only [h3, Bool.false_eq_true, if_false] at hl
        cases h4 : (schemaLookup schemas (phpType f.type_hint)).isSome with
        | true =>
          simp only [h4, if_true] at hl
          exact thisArrow_line_shape _ l hl
        | false =>
          simp only [h4, Bool.false_eq_true, if_false] at hl
          exact thisArrow_line_shape _ l hl

theorem filter_flatMap {α : Type} (p : String → Bool) (g : α → List String) :
    ∀ l : List α, (l.flatMap g).filter p = l.flatMap (fun a => (g a).filter p)
  | [] => rfl
  | a :: l => by
    simp only [List.flatMap_cons, List.filter_append]
    rw [filter_flatMap p g l]

theorem flatMap_congr_of_eq {α : Type} (g h : α → List String) :
    ∀ l : List α, (∀ a ∈ l, g a = h a) → l.flatMap g = l.flatMap h
  | [], _ => rfl
  | a :: l, he => by
    simp only [List.flatMap_cons]
    rw [he a (List.mem_cons_self a l),
      flatMap_congr_of_eq g h l (fun b hb => he b (List.mem_cons_of_mem a hb))]

theorem flatMap_singleton_eq_map {α : Type} (g : α → String) :
    ∀ l : List α, l.flatMap (fun a => [g a]) = l.map g
  | [] => rfl
  | a :: l => by
    simp only [List.flatMap_cons, List.map_cons, List.singleton_append]
    rw [flatMap_singleton_eq_map g l]

theorem length_flatMap_singleton {α : Type} (g : α → List String) :
    ∀ l : List α, (∀ a ∈ l, (g a).length = 1) → (l.flatMap g).length = l.length
  | [], _ => rfl
  | a :: l, h => by
    simp only [List.flatMap_cons, List.length_append, List.length_cons]
    rw [h a (List.mem_cons_self a l),
      length_flatMap_singleton g l (fun b hb => h b (List.mem_cons_of_mem a hb))]
    omega

/-- On a supported type hint the constructor dispatch emits exactly one
assignment. -/
theorem hydrationLines_length_one (schemas : List SchemaInfo) (f : FieldInfo)
    (h : goodHint f.type_hint = true) : (hydrationLines schemas f).length = 1 := by
  rcases goodHint_spec _ h with hw | ⟨R, hR, heq⟩ | ⟨R, hR, heq⟩
  · have hL : hasSubStr f.type_hint "List[" = false :=
      hasSubStr_plain_bracket_false _ _ hw (by decide)
    have hO : hasSubStr f.type_hint "Optional[" = false :=
      hasSubStr_plain_bracket_false _ _ hw (by decide)
    unfold hydrationLines
    cases h1 : phpType f.type_hint == "array" with
    | true =>
      simp only [h1, if_true, hL, Bool.false_eq_true, if_false]
      rfl
    | false =>
      cases h2 : (phpType f.type_hint == "int" || phpType f.type_hint == "float" ||
          phpType f.type_hint == "bool" || phpType f.type_hint == "string") with
      | true =>
        cases h3 : phpType f.type_hint == "float" with
        | true =>
          simp only [h1, Bool.false_eq_true, if_false, h2, if_true]
          simp only [h3, if_true]
          rfl
        | false =>
          simp only [h1, Bool.false_eq_true, if_false, h2, if_true]
          simp only [h3, Bool.false_eq_true, if_false]
          rfl
      | false =>
        cases h4 : (schemaLookup schemas (phpType f.type_hint)).isSome with
        | true =>
          simp only [h1, h2, Bool.false_eq_true, if_false, hO, h4, if_true]
          rfl
        | false =>
          simp only [h1, h2, Bool.false_eq_true, if_false, hO, h4]
          rfl
  · unfold hydrationLines
    rw [heq, phpType_listWrap, hasSubStr_listWrap_list, searchListInner_listWrap R hR]
    cases h4 : (schemaLookup schemas R).isSome with
    | true =>
      simp only [if_true, h4]
      rfl
    | false =>
      simp only [if_true, h4, Bool.false_eq_true, if_false]
      rfl
  · unfold hydrationLines
    rw [heq, phpType_optWrap R hR, hasSubStr_optWrap_list_false R hR, hasSubStr_optWrap_opt,
      searchOptionalInner_optWrap R hR]
    have c1 : (("?" ++ phpBase R) == "array") = false := rfl
    have c2 : (("?" ++ phpBase R) == "int") = false := rfl
    have c3 : (("?" ++ phpBase R) == "float") = false := rfl
    have c4 : (("?" ++ phpBase R) == "bool") = false := rfl
    have c5 : (("?" ++ phpBase R) == "string") = false := rfl
    cases h4 : (schemaLookup schemas R).isSome with
    | true =>
      simp only [c1, c2, c3, c4, c5, Bool.or_self, Bool.false_eq_true, if_false, if_true, h4]
      rfl
    | false =>
      simp only [c1, c2, c3, c4, c5, Bool.or_self, Bool.false_eq_true, if_false, h4]
      rfl

theorem flatMap_const_nil {α : Type} : ∀ l : List α, l.flatMap (fun _ => ([] : List String)) = []
  | [] => rfl
  | a :: l => by simp [List.flatMap_cons, flatMap_const_nil l]

theorem filter_isProp_generateClassLines (schemas : List SchemaInfo) (s : SchemaInfo) :
    (generateClassLines schemas s).filter isPropLine = s.fields.map propertyLine := by
  unfold generateClassLines
  rw [List.filter_append, List.filter_append, List.filter_append, List.filter_append,
    filter_isProp_header, filter_isProp_ctor, filter_isProp_footer,
    filter_flatMap isPropLine propBlock s.fields,
    flatMap_congr_of_eq _ (fun f => [propertyLine f]) s.fields
      (fun f _ => filter_isProp_propBlock f),
    flatMap_singleton_eq_map]
  have hnp : (s.fields.flatMap (hydrationLines schemas)).filter isPropLine = [] := by
    rw [List.filter_eq_nil_iff]
    intro a ha
    obtain ⟨f, hf, haf⟩ := List.mem_flatMap.mp ha
    rw [(hydration_line_shape schemas f a haf).2]
    exact Bool.false_ne_true
  rw [hnp]
  simp

theorem filter_isAssign_generateClassLines (schemas : List SchemaInfo) (s : SchemaInfo) :
    (generateClassLines schemas s).filter isAssignLine =
      s.fields.flatMap (hydrationLines schemas) := by
  unfold generateClassLines
  rw [List.filter_append, List.filter_append, List.filter_append, List.filter_append,
    filter_isAssign_header, filter_isAssign_ctor, filter_isAssign_footer,
    filter_flatMap isAssignLine propBlock s.fields,
    flatMap_congr_of_eq _ (fun _ => ([] : List String)) s.fields
      (fun f _ => filter_isAssign_propBlock f),
    flatMap_const_nil]
  have hself : (s.fields.flatMap (hydrationLines schemas)).filter isAssignLine =
      s.fields.flatMap (hydrationLines schemas) := by
    rw [List.filter_eq_self]
    intro a ha
    obtain ⟨f, hf, haf⟩ := List.mem_flatMap.mp ha
    exact (hydration_line_shape schemas f a haf).1
  rw [hself]
  simp

/-! ## Claim C1 -/

/-- C1, counterexample.  The claim says every extracted record with N fields
gets exactly N public property declarations *and* N constructor assignments.
The extractor accepts any annotation text, and for the field typed
`List[Dict[str, int]]` the constructor dispatch takes the `array` branch,
the regex `List\[(\w+)\]` finds no match, and *no* assignment is emitted:
one property declaration, zero assignments. -/
theorem c1_counterexample :
    nestedListSchema.fields.length = 1 ∧
    (generateClassLines [] nestedListSchema).countP isPropLine = 1 ∧
    (generateClassLines [] nestedListSchema).countP isAssignLine = 0 := by
  refine ⟨rfl, ?_, ?_⟩ <;> decide

/-- C1, amended: for a record all of whose field annotations lie in the
supported one-level grammar (identifier, `List[identifier]`,
`Optional[identifier]`), the generated class source has exactly one public
property declaration line per field in declaration order, and the
constructor has exactly one assignment statement per field in declaration
order (the property lines are exactly `fields.map propertyLine` and the
assignment lines are exactly the per-field hydration statements, each of
which is a single line). -/
theorem c1_class_emission (schemas : List SchemaInfo) (s : SchemaInfo)
    (h : ∀ f ∈ s.fields, goodHint f.type_hint = true) :
    (generateClassLines schemas s).filter isPropLine = s.fields.map propertyLine ∧
    (generateClassLines schemas s).filter isAssignLine =
      s.fields.flatMap (hydrationLines schemas) ∧
    (∀ f ∈ s.fields, (hydrationLines schemas f).length = 1) ∧
    (generateClassLines schemas s).countP isPropLine = s.fields.length ∧
    (generateClassLines schemas s).countP isAssignLine = s.fields.length := by
  refine ⟨filter_isProp_generateClassLines schemas s,
    filter_isAssign_generateClassLines schemas s,
    fun f hf => hydrationLines_length_one schemas f (h f hf), ?_, ?_⟩
  · rw [List.countP_eq_length_filter, filter_isProp_generateClassLines, List.length_map]
  · rw [List.countP_eq_length_filter, filter_isAssign_generateClassLines]
    exact length_flatMap_singleton _ _ (fun f hf => hydrationLines_length_one schemas f (h f hf))

/-- C1 witness: the amended theorem applied to the concrete two-field
`Point` record. -/
theorem c1_class_emission_witness :
    (∀ f ∈ pointSchema.fields, goodHint f.type_hint = true) ∧
    (generateClassLines [] pointSchema).countP isPropLine = pointSchema.fields.length ∧
    (generateClassLines [] pointSchema).countP isAssignLine = pointSchema.fields.length :=
  ⟨by decide, (c1_class_emission [] pointSchema (by decide)).2.2.2⟩

/-! ## Claim C2 -/

theorem hasSubStr_self (s : String) : hasSubStr s s = true := by
  show hasSubL s.data s.data = true
  have := hasSubL_append_self s.data []
  rwa [List.append_nil] at this

theorem phpBase_plain (R : String) (h1 : hasSubStr R "str" = false)
    (h2 : hasSubStr R "int" = false) (h3 : hasSubStr R "float" = false)
    (h4 : hasSubStr R "bool" = false) (h5 : hasSubStr R "UUID" = false) :
    phpBase R = R := by
  unfold phpBase
  rw [h1, h2, h3, h4, h5]
  simp

/-- C2, counterexample.  `Point` is a known record and the field `corner`
is a bare required `Point` reference, yet the generated hydration assigns
the scalar default `0` (because `php_type` classifies `Point` as `int` by
the substring test `'int' in 'Point'`) and never constructs `Point`. -/
theorem c2_counterexample :
    (schemaLookup [pointSchema] "Point").isSome = true ∧
    hydrationLines [pointSchema] cornerReqField =
      ["        $this->corner = $data[\x27corner\x27] ?? 0;"] ∧
    hydrationLines [pointSchema] cornerReqField ≠
      ["        $this->corner = new Point($data[\x27corner\x27]);"] := by
  refine ⟨rfl, ?_, ?_⟩ <;> decide

/-- C2, amended.  For a known record `R` (an identifier):
(1) a field typed `Optional[R]` is hydrated by the `isset(...) ? new R(...)
: null` statement, keyed by the source field name — unconditionally; and
(2) a bare required `R` reference is hydrated by the unconditional
`new R(...)` statement *provided* `R` contains none of `str`, `int`,
`float`, `bool`, `UUID` as a substring and is not the literal `array`
(otherwise the substring-based type sniffing diverts the field into the
scalar/array branches, as the counterexample shows). -/
theorem c2_hydration_reference (schemas : List SchemaInfo) (R : String)
    (f1name f1desc : String) (f1df : Option String) (f1cs : List (String × String))
    (f2name f2desc : String) (f2df : Option String) (f2cs : List (String × String))
    (hR : isWordlike R = true)
    (hKnown : (schemaLookup schemas R).isSome = true) :
    hydrationLines schemas
        { name := f1name, type_hint := "Optional[" ++ (R ++ "]"), description := f1desc,
          default := f1df, constraints := f1cs } =
      [optionalConstructLine
        { name := f1name, type_hint := "Optional[" ++ (R ++ "]"), description := f1desc,
          default := f1df, constraints := f1cs } R] ∧
    (hasSubStr R "str" = false → hasSubStr R "int" = false → hasSubStr R "float" = false →
     hasSubStr R "bool" = false → hasSubStr R "UUID" = false → R ≠ "array" →
     hydrationLines schemas
         { name := f2name, type_hint := R, description := f2desc,
           default := f2df, constraints := f2cs } =
       [requiredConstructLine
         { name := f2name, type_hint := R, description := f2desc,
           default := f2df, constraints := f2cs } R]) := by
  constructor
  · unfold hydrationLines
    rw [phpType_optWrap R hR, hasSubStr_optWrap_list_false R hR, hasSubStr_optWrap_opt,
      searchOptionalInner_optWrap R hR]
    have c1 : (("?" ++ phpBase R) == "array") = false := rfl
    have c2 : (("?" ++ phpBase R) == "int") = false := rfl
    have c3 : (("?" ++ phpBase R) == "float") = false := rfl
    have c4 : (("?" ++ phpBase R) == "bool") = false := rfl
    have c5 : (("?" ++ phpBase R) == "string") = false := rfl
    simp only [c1, c2, c3, c4, c5, Bool.or_self, Bool.false_eq_true, if_false, if_true, hKnown]
  · intro h1 h2 h3 h4 h5 hArr
    have hpt : phpType R = R := by
      rw [phpType_plain R hR, phpBase_plain R h1 h2 h3 h4 h5]
    have n1 : (R == "array") = false := beq_eq_false_iff_ne.mpr hArr
    have n2 : (R == "int") = false := by
      refine beq_eq_false_iff_ne.mpr ?_
      intro e
      rw [e] at h2
      exact absurd h2 (by decide)
    have n3 : (R == "float") = false := by
      refine beq_eq_false_iff_ne.mpr ?_
      intro e
      rw [e] at h3
      exact absurd h3 (by decide)
    have n4 : (R == "bool") = false := by
      refine beq_eq_false_iff_ne.mpr ?_
      intro e
      rw [e] at h4
      exact absurd h4 (by decide)
    have n5 : (R == "string") = false := by
      refine beq_eq_false_iff_ne.mpr ?_
      intro e
      rw [e] at h1
      exact absurd h1 (by decide)
    have hO : hasSubStr R "Optional[" = false :=
      hasSubStr_plain_bracket_false R "Optional[" hR (by decide)
    unfold hydrationLines
    rw [hpt]
    simp only [n1, n2, n3, n4, n5, Bool.or_self, Bool.false_eq_true, if_false, hO, hKnown, if_true]

/-- C2 witness: the amended theorem applied to the known record `Inner`. -/
theorem c2_hydration_reference_witness :
    (isWordlike "Inner" = true ∧ (schemaLookup [innerSchema] "Inner").isSome = true) ∧
    hydrationLines [innerSchema]
        { name := "corner", type_hint := "Optional[" ++ ("Inner" ++ "]"), description := "",
          default := none, constraints := [] } =
      [optionalConstructLine
        { name := "corner", type_hint := "Optional[" ++ ("Inner" ++ "]"), description := "",
          default := none, constraints := [] } "Inner"] ∧
    hydrationLines [innerSchema]
        { name := "corner2", type_hint := "Inner", description := "",
          default := none, constraints := [] } =
      [requiredConstructLine
        { name := "corner2", type_hint := "Inner", description := "",
          default := none, constraints := [] } "Inner"] :=
  ⟨⟨by decide, by decide⟩,
   (c2_hydration_reference [innerSchema] "Inner" "corner" "" none [] "corner2" "" none []
     (by decide) (by decide)).1,
   (c2_hydration_reference [innerSchema] "Inner" "corner" "" none [] "corner2" "" none []
     (by decide) (by decide)).2 (by decide) (by decide) (by decide) (by decide) (by decide)
     (by decide)⟩

/-! ## Claim C3 -/

/-- C3, counterexample.  `bool` is a recognized scalar primitive (its
representative wire literal is `true`), yet a field typed `List[bool]`
synthesizes the empty array `[]` rather than a two-value array; likewise
the per-field wire display gives `[]` for `List[int]`. -/
theorem c3_counterexample :
    getJsonExampleValue flagsField = "[]" ∧
    getJsonExample "bool" = "true" ∧
    formatJsonFieldDisplay []
        { name := "nums", type_hint := "List[int]", description := "",
          default := none, constraints := [] } "Box" =
      "```json\n\"nums\": []\n```" := by
  refine ⟨?_, ?_, ?_⟩ <;> decide

/-- C3, amended.  In the sub-type example context, `List[str]`, `List[int]`
and `List[float]` synthesize two-value representative arrays; a `List` of
*any* other inner identifier — including the recognized scalars `bool` and
`UUID` and any reference unknown to the registry — synthesizes `[]`.  In
the per-field display context a list of an unknown reference synthesizes
`[]` (there even `List[int]` gives `[]`; only `List[str]` is special). -/
theorem c3_list_examples (nm d : String) (df : Option String)
    (cs : List (String × String)) (schemas : List SchemaInfo) (R cur : String)
    (hR : isWordlike R = true)
    (hs : (R == "str") = false) (hi : (R == "int") = false) (hf : (R == "float") = false)
    (hUnknown : schemaLookup schemas R = none)
    (hUnknownWrap : schemaLookup schemas ("List[" ++ (R ++ "]")) = none) :
    getJsonExampleValue
        { name := nm, type_hint := "List[str]", description := d,
          default := df, constraints := cs } = "[\"...\", \"...\"]" ∧
    getJsonExampleValue
        { name := nm, type_hint := "List[int]", description := d,
          default := df, constraints := cs } = "[1, 2]" ∧
    getJsonExampleValue
        { name := nm, type_hint := "List[float]", description := d,
          default := df, constraints := cs } = "[0.5, 0.8]" ∧
    getJsonExampleValue
        { name := nm, type_hint := "List[" ++ (R ++ "]"), description := d,
          default := df, constraints := cs } = "[]" ∧
    formatJsonFieldDisplay schemas
        { name := nm, type_hint := "List[" ++ (R ++ "]"), description := d,
          default := df, constraints := cs } cur =
      "```json\n\"" ++ (nm ++ "\": []\n```") := by
  refine ⟨rfl, rfl, rfl, ?_, ?_⟩
  · unfold getJsonExampleValue
    dsimp only
    rw [hasSubStr_listWrap_list, getInnerType_listWrap R hR]
    simp only [hs, hi, hf, Bool.false_eq_true, if_false, if_true]
  · unfold formatJsonFieldDisplay
    dsimp only
    have hbeq : ((some R : Option String) == some "str") = (R == "str") := rfl
    simp only [getInnerType_listWrap R hR, hUnknown, hUnknownWrap, hasSubStr_listWrap_list,
      hbeq, hs, Bool.false_eq_true, if_false, if_true, jsonName]

/-- C3 witness: the amended theorem applied to the unknown reference
`Widget` against an empty registry. -/
theorem c3_list_examples_witness :
    (isWordlike "Widget" = true ∧ schemaLookup [] "Widget" = none) ∧
    getJsonExampleValue
        { name := "ws", type_hint := "List[" ++ ("Widget" ++ "]"), description := "",
          default := none, constraints := [] } = "[]" ∧
    formatJsonFieldDisplay []
        { name := "ws", type_hint := "List[" ++ ("Widget" ++ "]"), description := "",
          default := none, constraints := [] } "Box" =
      "```json\n\"" ++ ("ws" ++ "\": []\n```") :=
  ⟨⟨by decide, by decide⟩,
   (c3_list_examples "ws" "" none [] [] "Widget" "Box" (by decide) (by decide) (by decide)
     (by decide) (by decide) (by decide)).2.2.2.1,
   (c3_list_examples "ws" "" none [] [] "Widget" "Box" (by decide) (by decide) (by decide)
     (by decide) (by decide) (by decide)).2.2.2.2⟩

/-! ## Claim C4 -/

/-- C4, confirmed.  For a field typed `Optional[R]` with `R` a known record,
the synthesized wire example embeds the expanded example object of `R`
(built from `R`'s own fields by `_build_json_object_example`), annotated
`// or null` and followed by the link prose when the link resolver produces
a target; the embedded value is a `{...}` object literal and never the
literal `null`. -/
theorem c4_optional_record_example (schemas : List SchemaInfo) (R : String) (r : SchemaInfo)
    (nm d cur : String) (df : Option String) (cs : List (String × String))
    (hR : isWordlike R = true)
    (hKnown : schemaLookup schemas R = some r) :
    (formatJsonFieldDisplay schemas
        { name := nm, type_hint := "Optional[" ++ (R ++ "]"), description := d,
          default := df, constraints := cs } cur =
      (let jc := "```json\n\"" ++ (nm ++ ("\": " ++
        (buildJsonObjectExample schemas r ++ "  // or null\n```")));
       match getTypeLink schemas R cur with
       | some l => jc ++ ("\n\nThis is a [`" ++ (R ++ ("`](" ++ (l ++ ") object (or null)."))))
       | none => jc)) ∧
    strStartsWith (buildJsonObjectExample schemas r) "\x7b" = true ∧
    buildJsonObjectExample schemas r ≠ "null" := by
  refine ⟨?_, rfl, ?_⟩
  · unfold formatJsonFieldDisplay
    dsimp only
    simp only [getInnerType_optWrap R hR, hKnown, hasSubStr_optWrap_list_false R hR,
      hasSubStr_optWrap_opt, Bool.false_eq_true, if_false, if_true, jsonName]
  · intro h
    have h2 : strStartsWith (buildJsonObjectExample schemas r) "\x7b" = true := rfl
    rw [h] at h2
    exact absurd h2 (by decide)

/-- C4 witness: the theorem applied to the known record `Point`. -/
theorem c4_optional_record_example_witness :
    (isWordlike "Point" = true ∧ schemaLookup [pointSchema] "Point" = some pointSchema) ∧
    (formatJsonFieldDisplay [pointSchema]
        { name := "corner", type_hint := "Optional[" ++ ("Point" ++ "]"), description := "",
          default := none, constraints := [] } "Box" =
      (let jc := "```json\n\"" ++ ("corner" ++ ("\": " ++
        (buildJsonObjectExample [pointSchema] pointSchema ++ "  // or null\n```")));
       match getTypeLink [pointSchema] "Point" "Box" with
       | some l => jc ++ ("\n\nThis is a [`" ++ ("Point" ++ ("`](" ++ (l ++ ") object (or null)."))))
       | none => jc)) ∧
    strStartsWith (buildJsonObjectExample [pointSchema] pointSchema) "\x7b" = true ∧
    buildJsonObjectExample [pointSchema] pointSchema ≠ "null" :=
  ⟨⟨by decide, by decide⟩,
   c4_optional_record_example [pointSchema] "Point" pointSchema "corner" "" "Box" none []
     (by decide) (by decide)⟩

/-! ## Claim C5 -/

/-- C5, counterexample.  `LogicalFallacy` is listed as an inline subtype of
`CommentScore` in the fixed editorial table, yet with a registry that does
not contain it the resolver returns no link at all — the claimed precedence
(inline subtype of the current document ⇒ in-page anchor) does not apply
unconditionally: registry membership is checked first. -/
theorem c5_counterexample :
    inlineMember "LogicalFallacy" "CommentScore" = true ∧
    getTypeLink [] "LogicalFallacy" "CommentScore" = none := by
  refine ⟨?_, ?_⟩ <;> decide

/-- C5, amended.  For a type name known to the registry the resolver follows
exactly the claimed precedence — inline subtype of the current document ⇒
in-page anchor; else main record ⇒ own-page link; else inline subtype of
another parent ⇒ that parent's anchor; else no link.  A name absent from
the registry gets no link regardless of the tables. -/
theorem c5_link_resolution (schemas : List SchemaInfo) (t p : String) :
    ((schemaLookup schemas t).isSome = false → getTypeLink schemas t p = none) ∧
    ((schemaLookup schemas t).isSome = true →
      (inlineMember t p = true → getTypeLink schemas t p = some ("#" ++ lowerStr t)) ∧
      (inlineMember t p = false → t ∈ MAIN_SCHEMAS →
        getTypeLink schemas t p = some ("./" ++ t)) ∧
      (inlineMember t p = false → t ∉ MAIN_SCHEMAS →
        ∀ parent, subtypeParent t = some parent →
          getTypeLink schemas t p = some ("./" ++ (parent ++ ("#" ++ lowerStr t)))) ∧
      (inlineMember t p = false → t ∉ MAIN_SCHEMAS →
        subtypeParent t = none → getTypeLink schemas t p = none)) := by
  unfold getTypeLink
  constructor
  · intro h
    simp [h]
  · intro hk
    refine ⟨?_, ?_, ?_, ?_⟩
    · intro h1
      simp [hk, h1]
    · intro h1 h2
      simp [hk, h1, h2]
    · intro h1 h2 parent hpar
      simp [hk, h1, h2, hpar]
    · intro h1 h2 hpar
      simp [hk, h1, h2, hpar]

/-- C5 witness: with `LogicalFallacy` present in the registry, rendering
`CommentScore`'s document resolves it to the in-page anchor. -/
theorem c5_link_resolution_witness :
    ((schemaLookup [lfSchema] "LogicalFallacy").isSome = true ∧
     inlineMember "LogicalFallacy" "CommentScore" = true) ∧
    getTypeLink [lfSchema] "LogicalFallacy" "CommentScore" =
      some ("#" ++ lowerStr "LogicalFallacy") :=
  ⟨⟨by decide, by decide⟩,
   ((c5_link_resolution [lfSchema] "LogicalFallacy" "CommentScore").2 (by decide)).1 (by decide)⟩

/-! ## Claim C6 -/

/-- C6, counterexample.  A field whose annotation text `List[List[int]]` is
outside the supported one-level type grammar does *not* abort extraction:
the parser produces a registry containing the record (with the raw text
carried opaquely) and the pipeline still emits a PHP artifact for it.  No
`TypeParseError`/`ExtractionError` mechanism exists in the generator. -/
theorem c6_counterexample :
    parseSchemas { classes := [nestedListClassNode] } =
      [{ name := "Payload", docstring := "A payload.",
         fields := [{ name := "data", type_hint := "List[List[int]]", description := "",
                      default := none, constraints := [] }],
         is_frozen := true, has_properties := false }] ∧
    (runPipeline { classes := [nestedListClassNode] }).1.length = 1 := by
  refine ⟨?_, ?_⟩ <;> decide

/-- C6, amended.  Extraction never fails on a field's type text: every
annotated attribute other than the configuration key yields a `FieldInfo`,
with the raw annotation text passed through verbatim as the type hint
(malformed or unsupported shapes included); only source-level syntax errors
(upstream of the extractor, in `ast.parse`) can abort a run. -/
theorem c6_extraction_total (n : AnnAssignNode) (h : n.target ≠ "model_config") :
    (parseField n).isSome = true ∧
    (parseField n).map FieldInfo.type_hint = some n.annotation := by
  have hb : (n.target == "model_config") = false := beq_eq_false_iff_ne.mpr h
  unfold parseField
  rw [hb]
  simp

/-- C6 witness: the amended theorem applied to the `List[List[int]]`
annotated attribute. -/
theorem c6_extraction_total_witness :
    (("data" : String) ≠ "model_config") ∧
    (parseField { target := "data", annotation := "List[List[int]]", value := none }).isSome
      = true ∧
    (parseField { target := "data", annotation := "List[List[int]]", value := none }).map
      FieldInfo.type_hint = some "List[List[int]]" :=
  ⟨by decide,
   (c6_extraction_total { target := "data", annotation := "List[List[int]]", value := none }
     (by decide)).1,
   (c6_extraction_total { target := "data", annotation := "List[List[int]]", value := none }
     (by decide)).2⟩

/-! ## Claim C7 -/

/-- C7, counterexample.  A configuration block that does not mention the
frozen flag at all leaves `is_frozen = true` — the claim's "absence of the
flag yields false" is wrong on the code (the default true wins). -/
theorem c7_counterexample :
    hasSubStr "ConfigDict(validate_assignment=True)" "frozen" = false ∧
    (parseClass noFrozenClassNode).is_frozen = true := by
  refine ⟨?_, ?_⟩ <;> decide

theorem frozenFold_const (acc : Bool) :
    ∀ rest : List BodyItem, (∀ i ∈ rest, isConfigAssign i = false) →
      rest.foldl frozenStep acc = acc
  | [], _ => rfl
  | i :: rest, h => by
    have hi := h i (List.mem_cons_self i rest)
    have hstep : frozenStep acc i = acc := by
      cases i with
      | assign targets v =>
        simp only [isConfigAssign] at hi
        have hi2 : "model_config" ∉ targets := by simpa using hi
        simp [frozenStep, hi2]
      | funcdef d => rfl
      | annAssign n => rfl
      | other => rfl
    rw [List.foldl_cons, hstep]
    exact frozenFold_const acc rest (fun j hj => h j (List.mem_cons_of_mem i hj))

/-- C7, amended.  `isFrozen` defaults to true: with no `model_config`
assignment it stays true, and with one it is false exactly when the
assignment's text contains `frozen` but neither `frozen=True` nor
`frozen = True` (covering the explicit `frozen=False` case); absence of the
flag from the block leaves the default true, it does not give false. -/
theorem c7_frozen_flag (nm doc : String) (bases : List String) (cfgText : String)
    (rest : List BodyItem) (hrest : ∀ i ∈ rest, isConfigAssign i = false) :
    (parseClass
        { name := nm, docstring := doc, bases := bases,
          body := BodyItem.assign ["model_config"] cfgText :: rest }).is_frozen =
      (if hasSubStr cfgText "frozen" = true then
        hasSubStr cfgText "frozen=True" || hasSubStr cfgText "frozen = True"
      else true) ∧
    (parseClass { name := nm, docstring := doc, bases := bases, body := rest }).is_frozen
      = true := by
  constructor
  · show (BodyItem.assign ["model_config"] cfgText :: rest).foldl frozenStep true = _
    rw [List.foldl_cons]
    have hstep : frozenStep true (BodyItem.assign ["model_config"] cfgText) =
        (if hasSubStr cfgText "frozen" = true then
          hasSubStr cfgText "frozen=True" || hasSubStr cfgText "frozen = True"
        else true) := rfl
    rw [hstep]
    exact frozenFold_const _ rest hrest
  · exact frozenFold_const true rest hrest

/-- C7 witness: an explicit `frozen=False` assignment yields
`is_frozen = false`, and an empty body yields the default true. -/
theorem c7_frozen_flag_witness :
    (∀ i ∈ ([] : List BodyItem), isConfigAssign i = false) ∧
    (parseClass
        { name := "M", docstring := "", bases := ["BaseModel"],
          body := [BodyItem.assign ["model_config"] "ConfigDict(frozen=False)"] }).is_frozen =
      (if hasSubStr "ConfigDict(frozen=False)" "frozen" = true then
        hasSubStr "ConfigDict(frozen=False)" "frozen=True" ||
          hasSubStr "ConfigDict(frozen=False)" "frozen = True"
      else true) ∧
    (parseClass
        { name := "M", docstring := "", bases := ["BaseModel"],
          body := [] }).is_frozen = true :=
  ⟨fun i hi => absurd hi (List.not_mem_nil i),
   (c7_frozen_flag "M" "" ["BaseModel"] "ConfigDict(frozen=False)" []
     (fun i hi => absurd hi (List.not_mem_nil i))).1,
   (c7_frozen_flag "M" "" ["BaseModel"] "ConfigDict(frozen=False)" []
     (fun i hi => absurd hi (List.not_mem_nil i))).2⟩

/-! ## Claim C8 -/

/-- C8, counterexample.  For the bare reference `Point` the emitted PHP
property type is `int`, not `Point`: the primitive table is matched by
*substring* (`'int' in 'Point'`), regardless of registry membership. -/
theorem c8_counterexample :
    phpType "Point" = "int" ∧ phpType "Point" ≠ "Point" := by
  refine ⟨?_, ?_⟩ <;> decide

/-- C8, amended.  For a bare `Reference(name)` the emitted PHP property
type is the literal `name` exactly when `name` contains none of `str`,
`int`, `float`, `bool`, `UUID` as a substring (registry membership plays no
role); when `str` occurs as a substring the emitted type is `string`
(the first table entry wins). -/
theorem c8_reference_type (n : String) (hn : isWordlike n = true) :
    (hasSubStr n "str" = false → hasSubStr n "int" = false → hasSubStr n "float" = false →
      hasSubStr n "bool" = false → hasSubStr n "UUID" = false → phpType n = n) ∧
    (hasSubStr n "str" = true → phpType n = "string") := by
  constructor
  · intro h1 h2 h3 h4 h5
    rw [phpType_plain n hn, phpBase_plain n h1 h2 h3 h4 h5]
  · intro h1
    rw [phpType_plain n hn]
    unfold phpBase
    rw [h1]
    simp

/-- C8 witness: `Widget` passes through unchanged; `Distribution` (which
contains `str`) is emitted as `string`. -/
theorem c8_reference_type_witness :
    (isWordlike "Widget" = true ∧ hasSubStr "Widget" "str" = false) ∧
    phpType "Widget" = "Widget" ∧ phpType "Distribution" = "string" :=
  ⟨⟨by decide, by decide⟩,
   (c8_reference_type "Widget" (by decide)).1 (by decide) (by decide) (by decide) (by decide)
     (by decide),
   (c8_reference_type "Distribution" (by decide)).2 (by decide)⟩

/-! ## Claim C9 -/

/-- C9, confirmed.  The emitted artifacts are a pure function of the parsed
registry: two runs whose extractions agree produce byte-identical PHP and
documentation outputs.  (The embedding is pure because the Python
generators consult nothing beyond the parsed schemas: no time, randomness
or external state; the only unordered intermediate — the import set — is
sorted before rendering.) -/
theorem c9_determinism (t₁ t₂ : ModuleTree) (h : parseSchemas t₁ = parseSchemas t₂) :
    runPipeline t₁ = runPipeline t₂ := by
  unfold runPipeline
  rw [h]

/-- C9 witness: two runs over the same (empty) module coincide. -/
theorem c9_determinism_witness :
    parseSchemas { classes := [] } = parseSchemas { classes := [] } ∧
    runPipeline { classes := [] } = runPipeline { classes := [] } :=
  ⟨rfl, c9_determinism _ _ rfl⟩

/-! ## Claim C10 -/

/-- C10, confirmed.  Every documentation artifact the pipeline emits starts
with the front matter `---`, `sidebar_position: 1`, `---`: `generate_doc`'s
`sidebar_position` parameter defaults to 1 and `main` never passes another
value, so all main records share position 1. -/
theorem c10_sidebar_position (t : ModuleTree) (nm content : String)
    (h : (nm, content) ∈ (runPipeline t).2) :
    strStartsWith content "---\nsidebar_position: 1\n---\n" = true := by
  unfold runPipeline at h
  dsimp only at h
  obtain ⟨s, hs, hmk⟩ := List.mem_filterMap.mp h
  cases hdc : docSchemas.contains s.name with
  | false =>
    rw [hdc] at hmk
    simp at hmk
  | true =>
    rw [hdc] at hmk
    simp only [if_true] at hmk
    have hcontent : content = generateDoc (parseSchemas t) s 1 := by
      have := (Prod.mk.injEq _ _ _ _).mp (Option.some.inj hmk)
      exact this.2.symm
    rw [hcontent]
    rfl

/-- C10 witness: the theorem applied to a module containing one
`CommentScore` record. -/
theorem c10_sidebar_position_witness :
    (("CommentScore.md", generateDoc (parseSchemas soloCommentScoreTree)
        (parseClass
          { name := "CommentScore", docstring := "Score of a comment.",
            bases := ["BaseModel"], body := [] }) 1) ∈ (runPipeline soloCommentScoreTree).2) ∧
    strStartsWith (generateDoc (parseSchemas soloCommentScoreTree)
        (parseClass
          { name := "CommentScore", docstring := "Score of a comment.",
            bases := ["BaseModel"], body := [] }) 1)
      "---\nsidebar_position: 1\n---\n" = true := by
  have hmem : ("CommentScore.md", generateDoc (parseSchemas soloCommentScoreTree)
      (parseClass
        { name := "CommentScore", docstring := "Score of a comment.",
          bases := ["BaseModel"], body := [] }) 1) ∈ (runPipeline soloCommentScoreTree).2 :=
    List.mem_singleton.mpr rfl
  exact ⟨hmem, c10_sidebar_position soloCommentScoreTree _ _ hmem⟩
